import Mathlib

/-!
Verification development for the Aniview animation engine
(react-native library: coordinate math, layout engine / `AniviewConfig`,
gesture state machine, bake pipeline and per-frame evaluator).

The definitions below are a shallow embedding of the TypeScript source:

* `src/core/AniviewMath.ts`   — pure coordinate math,
* `src/core/AniviewLock.ts`   — lock-mask construction,
* `src/aniviewConfig.tsx`     — `AniviewConfig.register` / `generateGesture`,
* `src/Aniview.tsx`           — color helpers (`normalizeColorToRgba`,
  `smartInterpolateColor`, `getSegmentInfo`) and the per-frame
  `useAnimatedStyle` worklet (the frame evaluator).

JavaScript numbers are modelled by `ℚ`; where the special values
`NaN`/`±Infinity` are semantically load-bearing (the camera entering the
evaluator) the type `JNum` extends `ℚ` with those values and mirrors the
IEEE comparison semantics (every comparison with `NaN` is false).
Array reads `a[i]` are modelled with `List.getD` (the source only reads
in-bounds indices; out-of-bounds reads would yield `undefined` and are
noted where relevant).  `Math.sqrt` appears in the source only inside
monotone comparisons of non-negative distances; the embedding compares
squared distances instead, which decides exactly the same comparisons.
-/

namespace Aniview

/-! ### JavaScript number model -/

/-- A JavaScript number: a finite rational or one of the special values
`NaN`, `Infinity`, `-Infinity`. -/
inductive JNum where
  | nan
  | inf
  | ninf
  | fin (q : ℚ)
deriving DecidableEq, Repr

/-- Is this a finite number? -/
def JNum.isFinite : JNum → Bool
  | .fin _ => true
  | _ => false

/-- JavaScript subtraction on possibly non-finite numbers. -/
def JNum.sub : JNum → JNum → JNum
  | .nan, _ => .nan
  | _, .nan => .nan
  | .inf, .inf => .nan
  | .inf, _ => .inf
  | .ninf, .ninf => .nan
  | .ninf, _ => .ninf
  | .fin _, .inf => .ninf
  | .fin _, .ninf => .inf
  | .fin a, .fin b => .fin (a - b)

/-- JavaScript `Math.abs` on possibly non-finite numbers. -/
def JNum.jabs : JNum → JNum
  | .nan => .nan
  | .inf => .inf
  | .ninf => .inf
  | .fin q => .fin |q|

/-- JavaScript `<=`: any comparison involving `NaN` is false. -/
def JNum.jle : JNum → JNum → Bool
  | .nan, _ => false
  | _, .nan => false
  | .ninf, _ => true
  | _, .inf => true
  | .inf, _ => false
  | _, .ninf => false
  | .fin a, .fin b => a ≤ b

/-- JavaScript `<`: any comparison involving `NaN` is false. -/
def JNum.jlt : JNum → JNum → Bool
  | .nan, _ => false
  | _, .nan => false
  | .inf, _ => false
  | .ninf, .ninf => false
  | .ninf, _ => true
  | _, .inf => true
  | .fin _, .ninf => false
  | .fin a, .fin b => a < b

/-! ### Small helpers shared by the embedding -/

/-- Update-or-append in an association list: the JavaScript semantics of
`obj[key] = v` on a plain object (an existing key keeps its position,
a new key is appended). -/
def setAssoc {β : Type} (l : List (String × β)) (k : String) (v : β) :
    List (String × β) :=
  match l with
  | [] => [(k, v)]
  | (k', v') :: t => if k' = k then (k, v) :: t else (k', v') :: setAssoc t k v

/-- Lookup in an association list (JavaScript property read). -/
def getAssoc {β : Type} (l : List (String × β)) (k : String) : Option β :=
  match l with
  | [] => none
  | (k', v') :: t => if k' = k then some v' else getAssoc t k

/-! ### AniviewMath (`src/core/AniviewMath.ts`) -/

/-- A (row, column) matrix position.  The sentinel `(9999, 9999)` marks an
out-of-range page id. -/
structure MatrixPos where
  r : ℕ
  c : ℕ
deriving DecidableEq, Repr

/-- Viewport dimensions (plus the measured container offset). -/
structure Dims where
  width : ℚ
  height : ℚ
  offsetX : ℚ
  offsetY : ℚ
deriving DecidableEq, Repr

/-- A world offset `{x, y}`. -/
structure Offset where
  x : ℚ
  y : ℚ
deriving DecidableEq, Repr

/-- `pageIdToMatrixPos` from `AniviewMath.ts`: converts a linear page id to a
(row, column) position, returning the sentinel `(9999, 9999)` for ids
outside `[0, rows*cols-1]`. -/
def pageIdToMatrixPos (pageId : ℤ) (layout : List (List ℕ)) : MatrixPos :=
  let rowLength := max 1 ((layout.headD []).length)
  let numRows := layout.length
  let maxPage : ℤ := (numRows * rowLength : ℕ) - 1
  if pageId < 0 ∨ maxPage < pageId then ⟨9999, 9999⟩
  else ⟨pageId.toNat / rowLength, pageId.toNat % rowLength⟩

/-- `calculateAxisOffset` from `AniviewMath.ts`: signed accumulation of
`size * (1 - overlap)` over the index gaps between `from` and `to`
(`overlaps[i] || 0` — missing entries count as zero overlap). -/
def calculateAxisOffset (fromIdx toIdx : ℕ) (size : ℚ) (overlaps : List ℚ) :
    ℚ :=
  if fromIdx = toIdx then 0
  else
    let direction : ℚ := if fromIdx < toIdx then 1 else -1
    let start := min fromIdx toIdx
    let stop := max fromIdx toIdx
    let total := ((List.range (stop - start)).map
      (fun j => size * (1 - overlaps.getD (start + j) 0))).sum
    total * direction

/-- `getPageOffset` from `AniviewMath.ts`. -/
def getPageOffset (pageId : ℤ) (layout : List (List ℕ)) (dims : Dims)
    (defaultPage : ℤ) (rowOverlaps colOverlaps : List ℚ) : Offset :=
  let target := pageIdToMatrixPos pageId layout
  let origin := pageIdToMatrixPos defaultPage layout
  { x := calculateAxisOffset origin.c target.c dims.width colOverlaps
    y := calculateAxisOffset origin.r target.r dims.height rowOverlaps }

/-- World bounds `{minX, maxX, minY, maxY}`. -/
structure WorldBounds where
  minX : ℚ
  maxX : ℚ
  minY : ℚ
  maxY : ℚ
deriving DecidableEq, Repr

/-- `getWorldBounds` from `AniviewMath.ts`: elementwise min/max of
`getPageOffset` over the page list; all-zero for an empty list. -/
def getWorldBounds (pages : List ℕ) (layout : List (List ℕ)) (dims : Dims)
    (defaultPage : ℤ) (rowOverlaps colOverlaps : List ℚ) : WorldBounds :=
  match pages with
  | [] => ⟨0, 0, 0, 0⟩
  | p :: rest =>
    let first := getPageOffset p layout dims defaultPage rowOverlaps colOverlaps
    rest.foldl
      (fun b q =>
        let o := getPageOffset q layout dims defaultPage rowOverlaps colOverlaps
        ⟨min b.minX o.x, max b.maxX o.x, min b.minY o.y, max b.maxY o.y⟩)
      ⟨first.x, first.x, first.y, first.y⟩

/-! ### AniviewLock (`src/core/AniviewLock.ts`) -/

/-- `AniviewLock.mask`: builds the 4-bit lock mask from the direction flags
(bit0 = left, bit1 = right, bit2 = up, bit3 = down). -/
def aniviewLockMask (left right up down : Bool) : ℕ :=
  let m := 0
  let m := if left then m ||| 1 else m
  let m := if right then m ||| 2 else m
  let m := if up then m ||| 4 else m
  if down then m ||| 8 else m

/-! ### getSegmentInfo (`src/Aniview.tsx`) -/

/-- Result of `getSegmentInfo`: segment index, fractional progress, and the
constant flag that lets the evaluator skip interpolation. -/
structure SegInfo where
  i : ℕ
  p : ℚ
  constant : Bool
deriving DecidableEq, Repr

/-- The `while (i < len - 1 && val >= input[i + 1]) i++` scan of
`getSegmentInfo` (fuel-bounded; the loop runs at most `input.length`
times). -/
def segScanAux (val : ℚ) (input : List ℚ) : ℕ → ℕ → ℕ
  | 0, i => i
  | fuel + 1, i =>
    if i < input.length - 1 ∧ input.getD (i + 1) 0 ≤ val then
      segScanAux val input fuel (i + 1)
    else i

/-- The segment scan started with full fuel. -/
def segScan (val : ℚ) (input : List ℚ) (i : ℕ) : ℕ :=
  segScanAux val input input.length i

/-- `getSegmentInfo` from `src/Aniview.tsx`: one-time segment search shared
by every style property of a frame. -/
def getSegmentInfo (val : ℚ) (input : List ℚ) : SegInfo :=
  let len := input.length
  if len = 0 then ⟨0, 0, true⟩
  else if len = 1 ∨ val ≤ input.getD 0 0 then ⟨0, 0, true⟩
  else if input.getD (len - 1) 0 ≤ val then ⟨len - 1, 0, true⟩
  else
    let i := segScan val input 0
    let gap := input.getD (i + 1) 0 - input.getD i 0
    let p := if 1/1000 < gap then (val - input.getD i 0) / gap else 0
    ⟨i, p, false⟩

/-! ### String and numeral primitives

The color code operates on JavaScript strings; the embedding works on the
underlying character lists.  Numeral rendering mirrors JavaScript number
formatting exactly for integers and terminating decimals (the only values
the color pipeline renders in the scenarios the claims exercise);
non-terminating decimals are truncated after 20 fractional digits. -/

/-- Build a string from a character list. -/
def charsStr (cs : List Char) : String := ⟨cs⟩

/-- JavaScript `String.prototype.startsWith`. -/
def jsStartsWith (s pat : String) : Bool := List.isPrefixOf pat.data s.data

/-- Characters matched by the regex class `\s` (ASCII subset). -/
def isWsChar (c : Char) : Bool :=
  c = ' ' ∨ c = '\t' ∨ c = '\n' ∨ c = '\r' ∨ c = '\x0b' ∨ c = '\x0c'

/-- Drop leading whitespace. -/
def dropWs (cs : List Char) : List Char := cs.dropWhile isWsChar

/-- Longest prefix of decimal digits, with the remainder. -/
def takeDigits : List Char → List Char × List Char
  | [] => ([], [])
  | c :: t =>
    if c.isDigit then
      let (d, r) := takeDigits t
      (c :: d, r)
    else ([], c :: t)

/-- Longest prefix of the regex class `[\d.]`, with the remainder. -/
def takeFloatChars : List Char → List Char × List Char
  | [] => ([], [])
  | c :: t =>
    if c.isDigit ∨ c = '.' then
      let (d, r) := takeFloatChars t
      (c :: d, r)
    else ([], c :: t)

/-- Is this a hexadecimal digit? -/
def isHexDigitChar (c : Char) : Bool :=
  c.isDigit ∨ ('a' ≤ c ∧ c ≤ 'f') ∨ ('A' ≤ c ∧ c ≤ 'F')

/-- Longest prefix of hexadecimal digits, with the remainder. -/
def takeHexDigits : List Char → List Char × List Char
  | [] => ([], [])
  | c :: t =>
    if isHexDigitChar c then
      let (d, r) := takeHexDigits t
      (c :: d, r)
    else ([], c :: t)

/-- Numeric value of a list of decimal digits. -/
def digitsToNat (ds : List Char) : ℕ :=
  ds.foldl (fun a c => a * 10 + (c.toNat - 48)) 0

/-- Numeric value of one hexadecimal digit. -/
def hexDigitVal (c : Char) : ℕ :=
  if c.isDigit then c.toNat - 48
  else if 'a' ≤ c ∧ c ≤ 'f' then c.toNat - 97 + 10
  else if 'A' ≤ c ∧ c ≤ 'F' then c.toNat - 65 + 10
  else 0

/-- Numeric value of a list of hexadecimal digits. -/
def hexDigitsToNat (ds : List Char) : ℕ :=
  ds.foldl (fun a c => a * 16 + hexDigitVal c) 0

/-- JavaScript `parseInt(s, 10)`: skip whitespace, optional sign, longest
digit prefix; `none` models `NaN`. -/
def jsParseIntDec (s : String) : Option ℤ :=
  let cs := dropWs s.data
  let (sign, cs) : ℤ × List Char :=
    match cs with
    | '-' :: t => (-1, t)
    | '+' :: t => (1, t)
    | _ => (1, cs)
  let (ds, _) := takeDigits cs
  if ds = [] then none else some (sign * (digitsToNat ds : ℤ))

/-- JavaScript `parseInt(s, 16)`: skip whitespace, optional sign, optional
`0x`/`0X`, longest hex-digit prefix; `none` models `NaN`. -/
def jsParseIntHex (s : String) : Option ℤ :=
  let cs := dropWs s.data
  let (sign, cs) : ℤ × List Char :=
    match cs with
    | '-' :: t => (-1, t)
    | '+' :: t => (1, t)
    | _ => (1, cs)
  let cs := match cs with
    | '0' :: 'x' :: t => t
    | '0' :: 'X' :: t => t
    | _ => cs
  let (ds, _) := takeHexDigits cs
  if ds = [] then none else some (sign * (hexDigitsToNat ds : ℤ))

/-- Fractional value of a digit list read after a decimal point. -/
def fracValue (ds : List Char) : ℚ :=
  (digitsToNat ds : ℚ) / (10 ^ ds.length : ℕ)

/-- JavaScript `parseFloat` restricted to sign/digits/dot (the regex
captures it is applied to contain no exponent part); `none` models `NaN`. -/
def jsParseFloat (s : String) : Option ℚ :=
  let cs := dropWs s.data
  let (sign, cs) : ℚ × List Char :=
    match cs with
    | '-' :: t => (-1, t)
    | '+' :: t => (1, t)
    | _ => (1, cs)
  let (ip, cs') := takeDigits cs
  match cs' with
  | '.' :: t =>
    let (fp, _) := takeDigits t
    if ip = [] ∧ fp = [] then none
    else some (sign * ((digitsToNat ip : ℚ) + fracValue fp))
  | _ => if ip = [] then none else some (sign * (digitsToNat ip : ℚ))

/-- Decimal digit characters of a natural number (most significant first);
the fuel argument only bounds the recursion (`n` itself is always
enough). -/
def natToStrAux : ℕ → ℕ → List Char → List Char
  | 0, n, acc => Char.ofNat (48 + n % 10) :: acc
  | fuel + 1, n, acc =>
    let acc' := Char.ofNat (48 + n % 10) :: acc
    if n < 10 then acc' else natToStrAux fuel (n / 10) acc'

/-- JavaScript rendering of a natural number. -/
def natToStr (n : ℕ) : String := charsStr (natToStrAux n n [])

/-- JavaScript rendering of an integer. -/
def intToStr (z : ℤ) : String :=
  if z < 0 then "-" ++ natToStr (-z).toNat else natToStr z.toNat

/-- Truncation toward zero (the rounding of the JavaScript `%` operator). -/
def ratTrunc (q : ℚ) : ℤ := if q < 0 then -((-q).floor) else q.floor

/-- JavaScript `%` on numbers (sign follows the dividend). -/
def qfmod (a b : ℚ) : ℚ := a - b * (ratTrunc (a / b) : ℚ)

/-- JavaScript `Math.round` (half-up, also for negatives). -/
def jround (q : ℚ) : ℤ := (q + 1/2).floor

/-- Fractional decimal digits of `0 ≤ q < 1`, up to `fuel` digits. -/
def fracDigits (fuel : ℕ) (q : ℚ) : List Char :=
  match fuel with
  | 0 => []
  | fuel + 1 =>
    if q = 0 then []
    else
      let q10 := q * 10
      let d := q10.floor.toNat
      Char.ofNat (48 + d) :: fracDigits fuel (q10 - (d : ℚ))

/-- JavaScript rendering of a (finite) number.  Exact for integers and for
decimals terminating within 20 digits; longer expansions are truncated
(approximating the shortest-roundtrip formatting of doubles, which no
claim exercises). -/
def qRender (q : ℚ) : String :=
  let sign := if q < 0 then "-" else ""
  let aq := |q|
  let ip := aq.floor.toNat
  let fr := aq - (ip : ℚ)
  if fr = 0 then sign ++ natToStr ip
  else sign ++ natToStr ip ++ "." ++ charsStr (fracDigits 20 fr)

/-- Render an integer channel, `NaN` for a failed parse (the template
string `rgba(${r},...)` prints `NaN` for a `NaN` number). -/
def renderChan (c : Option ℤ) : String :=
  match c with
  | none => "NaN"
  | some z => intToStr z

/-- Render the alpha channel, `NaN` for a failed parse. -/
def renderAlpha (a : Option ℚ) : String :=
  match a with
  | none => "NaN"
  | some q => qRender q

/-! ### Regex matching for the color patterns

`normalizeColorToRgba` (and the color parser) use the unanchored regexes
`rgba?\((\d+),\s*(\d+),\s*(\d+)(?:,\s*([\d.]+))?\)` and
`hsla?\((\d+),\s*([\d.]+)%?,\s*([\d.]+)%?(?:,\s*([\d.]+))?\)`.
For these patterns a greedy, non-backtracking scanner decides exactly the
same matches (every character class is disjoint from the character that
follows it), so the embedding implements the match attempt at one position
directly and scans positions left to right for the leftmost match. -/

/-- Consume one expected character. -/
def expectChar (c : Char) : List Char → Option (List Char)
  | x :: t => if x = c then some t else none
  | [] => none

/-- Attempt the `rgba?(...)` pattern at the head of the list, returning the
four captures. -/
def rgbAt (cs : List Char) :
    Option (List Char × List Char × List Char × Option (List Char)) :=
  match cs with
  | 'r' :: 'g' :: 'b' :: rest =>
    let rest := match rest with
      | 'a' :: t => t
      | _ => rest
    match expectChar '(' rest with
    | none => none
    | some r1 =>
      let (d1, r2) := takeDigits r1
      if d1 = [] then none else
      match expectChar ',' r2 with
      | none => none
      | some r3 =>
        let (d2, r5) := takeDigits (dropWs r3)
        if d2 = [] then none else
        match expectChar ',' r5 with
        | none => none
        | some r6 =>
          let (d3, r8) := takeDigits (dropWs r6)
          if d3 = [] then none else
          match r8 with
          | ',' :: r9 =>
            let (a1, r11) := takeFloatChars (dropWs r9)
            if a1 = [] then none
            else match expectChar ')' r11 with
              | some _ => some (d1, d2, d3, some a1)
              | none => none
          | _ =>
            match expectChar ')' r8 with
            | some _ => some (d1, d2, d3, none)
            | none => none
  | _ => none

/-- Leftmost match of the `rgba?(...)` pattern (JavaScript
`String.prototype.match` with an unanchored regex). -/
def findRgb : List Char → Option (List Char × List Char × List Char ×
    Option (List Char))
  | [] => none
  | c :: t =>
    match rgbAt (c :: t) with
    | some r => some r
    | none => findRgb t

/-- Attempt the `hsla?(...)` pattern at the head of the list. -/
def hslAt (cs : List Char) :
    Option (List Char × List Char × List Char × Option (List Char)) :=
  match cs with
  | 'h' :: 's' :: 'l' :: rest =>
    let rest := match rest with
      | 'a' :: t => t
      | _ => rest
    match expectChar '(' rest with
    | none => none
    | some r1 =>
      let (d1, r2) := takeDigits r1
      if d1 = [] then none else
      match expectChar ',' r2 with
      | none => none
      | some r3 =>
        let (f1, r5) := takeFloatChars (dropWs r3)
        if f1 = [] then none else
        let r5 := match r5 with
          | '%' :: t => t
          | _ => r5
        match expectChar ',' r5 with
        | none => none
        | some r6 =>
          let (f2, r8) := takeFloatChars (dropWs r6)
          if f2 = [] then none else
          let r8 := match r8 with
            | '%' :: t => t
            | _ => r8
          match r8 with
          | ',' :: r9 =>
            let (a1, r11) := takeFloatChars (dropWs r9)
            if a1 = [] then none
            else match expectChar ')' r11 with
              | some _ => some (d1, f1, f2, some a1)
              | none => none
          | _ =>
            match expectChar ')' r8 with
            | some _ => some (d1, f1, f2, none)
            | none => none
  | _ => none

/-- Leftmost match of the `hsla?(...)` pattern. -/
def findHsl : List Char → Option (List Char × List Char × List Char ×
    Option (List Char))
  | [] => none
  | c :: t =>
    match hslAt (c :: t) with
    | some r => some r
    | none => findHsl t

/-! ### Color model -/

/-- Lift a binary rational operation to `NaN`-propagating channels. -/
def optMap2 (f : ℚ → ℚ → ℚ) : Option ℚ → Option ℚ → Option ℚ
  | some a, some b => some (f a b)
  | _, _ => none

/-- The HSL-to-RGB helper chain used by both color functions:
`k(n) = (n + h/30) % 12`, `f(n) = l - arc * max(-1, min(k(n)-3, min(9-k(n), 1)))`. -/
def hslChannel (h sVal lVal : ℚ) (n : ℚ) : ℚ :=
  let k := qfmod (n + h / 30) 12
  let arc := sVal * min lVal (1 - lVal)
  lVal - arc * max (-1) (min (k - 3) (min (9 - k) 1))

/-- `normalizeColorToRgba` from `src/Aniview.tsx`: normalizes any color
string to an `rgba(r,g,b,a)` string.  Channels are `Option` values where
`none` models a `NaN` produced by `parseInt` on malformed hex digits. -/
def normalizeColorToRgba (c : String) : String :=
  if c = "" ∨ c = "transparent" then "rgba(0,0,0,0)"
  else if jsStartsWith c "#" then
    let h := c.data.drop 1
    if h.length = 3 then
      let r := jsParseIntHex (charsStr [h.getD 0 ' ', h.getD 0 ' '])
      let g := jsParseIntHex (charsStr [h.getD 1 ' ', h.getD 1 ' '])
      let b := jsParseIntHex (charsStr [h.getD 2 ' ', h.getD 2 ' '])
      "rgba(" ++ renderChan r ++ "," ++ renderChan g ++ "," ++ renderChan b
        ++ "," ++ renderAlpha (some 1) ++ ")"
    else
      let r := jsParseIntHex (charsStr (h.take 2))
      let g := jsParseIntHex (charsStr ((h.drop 2).take 2))
      let b := jsParseIntHex (charsStr ((h.drop 4).take 2))
      let a : Option ℚ :=
        if h.length = 8 then
          (jsParseIntHex (charsStr ((h.drop 6).take 2))).map
            (fun z => (z : ℚ) / 255)
        else some 1
      "rgba(" ++ renderChan r ++ "," ++ renderChan g ++ "," ++ renderChan b
        ++ "," ++ renderAlpha a ++ ")"
  else
    match findRgb c.data with
    | some (m1, m2, m3, m4) =>
      -- captured digit strings are copied into the result verbatim;
      -- `match[4] || 1` - the capture is non-empty whenever it exists
      "rgba(" ++ charsStr m1 ++ "," ++ charsStr m2 ++ "," ++ charsStr m3
        ++ "," ++ (match m4 with | some a => charsStr a | none => "1") ++ ")"
    | none =>
      match findHsl c.data with
      | some (m1, m2, m3, m4) =>
        let hv : ℚ := (digitsToNat m1 : ℚ)
        let sv : Option ℚ := (jsParseFloat (charsStr m2)).map (fun q => q / 100)
        let lv : Option ℚ := (jsParseFloat (charsStr m3)).map (fun q => q / 100)
        let av : Option ℚ := match m4 with
          | some cap => jsParseFloat (charsStr cap)
          | none => some 1
        let chan := fun (n : ℚ) =>
          (optMap2 (fun s l => 255 * hslChannel hv s l n) sv lv).map jround
        "rgba(" ++ renderChan (chan 0) ++ "," ++ renderChan (chan 8) ++ ","
          ++ renderChan (chan 4) ++ "," ++ renderAlpha av ++ ")"
      | none => "rgba(0,0,0,0)"

/-- The color parser shared by the interpolators (the `parse` closure of
`jsInterpolateColor` in `src/Aniview.tsx`, which also models the parsing
done by the external `interpolateColor`): returns RGBA channels,
`(0,0,0,0)` for unparsable strings, `none` components for `NaN`. -/
def parseColor (c : String) : Option ℚ × Option ℚ × Option ℚ × Option ℚ :=
  if c = "" ∨ c = "transparent" then (some 0, some 0, some 0, some 0)
  else if jsStartsWith c "#" then
    let h := c.data.drop 1
    if h.length = 3 then
      ((jsParseIntHex (charsStr [h.getD 0 ' ', h.getD 0 ' '])).map (·),
       (jsParseIntHex (charsStr [h.getD 1 ' ', h.getD 1 ' '])).map (·),
       (jsParseIntHex (charsStr [h.getD 2 ' ', h.getD 2 ' '])).map (·),
       some 1)
    else
      ((jsParseIntHex (charsStr (h.take 2))).map (·),
       (jsParseIntHex (charsStr ((h.drop 2).take 2))).map (·),
       (jsParseIntHex (charsStr ((h.drop 4).take 2))).map (·),
       if h.length = 8 then
         (jsParseIntHex (charsStr ((h.drop 6).take 2))).map
           (fun z => (z : ℚ) / 255)
       else some 1)
  else
    match findRgb c.data with
    | some (m1, m2, m3, m4) =>
      ((jsParseIntDec (charsStr m1)).map (·),
       (jsParseIntDec (charsStr m2)).map (·),
       (jsParseIntDec (charsStr m3)).map (·),
       match m4 with
       | some cap => jsParseFloat (charsStr cap)
       | none => some 1)
    | none =>
      match findHsl c.data with
      | some (m1, m2, m3, m4) =>
        let hv : ℚ := (digitsToNat m1 : ℚ)
        let sv : Option ℚ := (jsParseFloat (charsStr m2)).map (fun q => q / 100)
        let lv : Option ℚ := (jsParseFloat (charsStr m3)).map (fun q => q / 100)
        let av : Option ℚ := match m4 with
          | some cap => jsParseFloat (charsStr cap)
          | none => some 1
        let chan := fun (n : ℚ) =>
          (optMap2 (fun s l => 255 * hslChannel hv s l n) sv lv).map
            (fun q => ((jround q : ℤ) : ℚ))
        (chan 0, chan 8, chan 4, av)
      | none => (some 0, some 0, some 0, some 0)

/-- The `for (i = 1; i < len - 1 && input[i] < value; ++i)` bracketing scan
of the reanimated `interpolate` family (fuel-bounded). -/
def reSegAux (v : ℚ) (input : List ℚ) : ℕ → ℕ → ℕ
  | 0, i => i
  | fuel + 1, i =>
    if i < input.length - 1 ∧ input.getD i 0 < v then
      reSegAux v input fuel (i + 1)
    else i

/-- The bracketing scan started with full fuel. -/
def reSeg (v : ℚ) (input : List ℚ) (i : ℕ) : ℕ :=
  reSegAux v input input.length i

/-- Model of `react-native-reanimated`'s `interpolate` with
`Extrapolation.CLAMP`: the value is clamped to the input range and blended
linearly on the bracketing segment. -/
def reInterpolate (v : ℚ) (input output : List ℚ) : ℚ :=
  if input.length < 2 then output.getD 0 0
  else
    let vc := max (input.getD 0 0) (min (input.getD (input.length - 1) 0) v)
    let i := reSeg vc input 1
    let x1 := input.getD (i - 1) 0
    let x2 := input.getD i 0
    let y1 := output.getD (i - 1) 0
    let y2 := output.getD i 0
    if x2 - x1 = 0 then y1 else y1 + (vc - x1) / (x2 - x1) * (y2 - y1)

/-- Model of `react-native-reanimated`'s `interpolateColor` in its default
RGB color space: the bracketing segment is found as in `interpolate`, the
two colors are parsed, each RGB channel is blended linearly and rounded,
alpha is blended linearly, and the result is rendered as `rgba(...)`. -/
def reInterpolateColor (v : ℚ) (input : List ℚ) (output : List String) :
    String :=
  if input.length < 2 then output.getD 0 ""
  else
    let vc := max (input.getD 0 0) (min (input.getD (input.length - 1) 0) v)
    let i := reSeg vc input 1
    let x1 := input.getD (i - 1) 0
    let x2 := input.getD i 0
    let t := if x2 - x1 = 0 then 0 else (vc - x1) / (x2 - x1)
    let c1 := parseColor (output.getD (i - 1) "")
    let c2 := parseColor (output.getD i "")
    let blendI := fun (p q : Option ℚ) =>
      (optMap2 (fun a b => a + (b - a) * t) p q).map jround
    "rgba(" ++ renderChan (blendI c1.1 c2.1) ++ ","
      ++ renderChan (blendI c1.2.1 c2.2.1) ++ ","
      ++ renderChan (blendI c1.2.2.1 c2.2.2.1) ++ ","
      ++ renderAlpha (optMap2 (fun a b => a + (b - a) * t) c1.2.2.2 c2.2.2.2)
      ++ ")"

/-- Index (from the left) of the last `,` in the list, if any
(JavaScript `lastIndexOf(',')`). -/
def lastCommaAux : List Char → ℕ → Option ℕ → Option ℕ
  | [], _, best => best
  | c :: t, i, best => lastCommaAux t (i + 1) (if c = ',' then some i else best)

/-- JavaScript `source.lastIndexOf(',')` (as an `Option`; the source
compares the result with `-1`). -/
def lastCommaIdx (cs : List Char) : Option ℕ := lastCommaAux cs 0 none

/-- The `fix` closure of `smartInterpolateColor`: if the first argument is
the normalized transparent color and the second is an `rgba(...)` string,
replace its RGB with that of the second (alpha forced to `0`). -/
def fixTransparent (transp source : String) : String :=
  if transp ≠ "rgba(0,0,0,0)" then transp
  else if ¬ jsStartsWith source "rgba" then transp
  else
    match lastCommaIdx source.data with
    | none => transp
    | some k => charsStr (source.data.take (k + 1)) ++ "0)"

/-- The `while (i < input.length - 2 && val >= input[i + 1]) i++` scan of
`smartInterpolateColor` (fuel-bounded). -/
def smartSegScanAux (val : ℚ) (input : List ℚ) : ℕ → ℕ → ℕ
  | 0, i => i
  | fuel + 1, i =>
    if i < input.length - 2 ∧ input.getD (i + 1) 0 ≤ val then
      smartSegScanAux val input fuel (i + 1)
    else i

/-- The segment scan of `smartInterpolateColor` started with full fuel. -/
def smartSegScan (val : ℚ) (input : List ℚ) (i : ℕ) : ℕ :=
  smartSegScanAux val input input.length i

/-- `smartInterpolateColor` from `src/Aniview.tsx`: interpolation across a
sequence of color keyframes; transparent endpoints of the active segment
adopt the RGB of their neighbor before blending.  The keyframe lists are
taken immutably and only read - the rewrite is local to the returned
value. -/
def smartInterpolateColor (val : ℚ) (input : List ℚ) (output : List String) :
    String :=
  if output.length = 0 then "rgba(0,0,0,0)"
  else if output.length = 1 then output.getD 0 ""
  else
    match input with
    | [] =>
      -- `val <= input[0]` and `val >= input[len-1]` are both false against
      -- `undefined`; the segment loop leaves `i = 0` and the
      -- `input[i+1] === undefined` safety check returns the last output
      output.getD (output.length - 1) ""
    | i0 :: _ =>
      if val ≤ i0 then output.getD 0 ""
      else if input.getD (input.length - 1) 0 ≤ val then
        output.getD (output.length - 1) ""
      else
        let i := smartSegScan val input 0
        if input.length ≤ i + 1 then output.getD (output.length - 1) ""
        else
          let c1 := output.getD i ""
          let c2 := output.getD (i + 1) ""
          let useC1 := fixTransparent c1 c2
          let useC2 := fixTransparent c2 c1
          reInterpolateColor val [input.getD i 0, input.getD (i + 1) 0]
            [useC1, useC2]

/-! ### Gesture state machine: `onUpdate`
(`AniviewConfig.generateGesture` in `src/aniviewConfig.tsx`) -/

/-- The mutable state captured by the gesture closures: the camera shared
values `x`/`y`, the gesture-start reference `startX`/`startY`, the locked
axis (0 = none, 1 = horizontal, 2 = vertical), and the bookkeeping flags. -/
structure GestureState where
  x : ℚ
  y : ℚ
  startX : ℚ
  startY : ℚ
  activeAxis : ℕ
  wasDisabled : Bool
  isSnapping : Bool
deriving DecidableEq, Repr

/-- A pan gesture event (translation and velocity). -/
structure PanEvent where
  translationX : ℚ
  translationY : ℚ
  velocityX : ℚ
  velocityY : ℚ
deriving DecidableEq, Repr

/-- Edge resistance strength from `generateGesture`. -/
def RESISTANCE : ℚ := 8/100

/-- The `.onUpdate` handler of the pan gesture built by
`AniviewConfig.generateGesture`, as a pure state transition.  Mirrors the
source statement by statement; the `isNaN` re-checks are identities on the
finite number model and are noted in place. -/
def onUpdate (bounds : WorldBounds) (screenWidth screenHeight : ℚ)
    (isSingleRow : Bool) (lockMask : Option ℕ) (gestureEnabled : Option Bool)
    (st : GestureState) (e : PanEvent) : GestureState :=
  let currentResyncX := st.x + e.translationX
  let currentResyncY := st.y + e.translationY
  if gestureEnabled = some false then
    { st with startX := currentResyncX, startY := currentResyncY,
              wasDisabled := true }
  else
    -- catch transition from disabled to enabled
    let startX0 := if st.wasDisabled then currentResyncX else st.startX
    let startY0 := if st.wasDisabled then currentResyncY else st.startY
    let dx := |e.translationX|
    let dy := |e.translationY|
    -- TRANSLATION_THRESHOLD = 3
    let isHBlocked := match lockMask with
      | some m => (m &&& 1) != 0
      | none => false
    let isVBlocked := match lockMask with
      | some m => (m &&& 2) != 0
      | none => false
    let activeAxis :=
      if st.activeAxis = 0 ∧ (3 < dx ∨ 3 < dy) then (if dy < dx then 1 else 2)
      else st.activeAxis
    -- horizontal application (mutates startX when blocked)
    let newX := startX0
    let newY := startY0
    let (newX, startX1) :=
      if activeAxis = 1 ∨ activeAxis = 0 then
        if isHBlocked then (newX, st.x + e.translationX)
        else (startX0 - e.translationX, startX0)
      else (newX, startX0)
    let (newY, startY1) :=
      if ¬isSingleRow ∧ (activeAxis = 2 ∨ activeAxis = 0) then
        if isVBlocked then (newY, st.y + e.translationY)
        else (startY0 - e.translationY, startY0)
      else (newY, startY0)
    -- alignment enforcement (reads the possibly mutated start values)
    let newX := if activeAxis = 2 then startX1 else newX
    let newY := if activeAxis = 1 then startY1 else newY
    -- NaN protection: identity on finite numbers
    -- clamp: at most 1.2 pages of movement from the start position
    let maxSwipeDistance := screenWidth * (12/10)
    let deltaX := newX - startX1
    let newX :=
      if maxSwipeDistance < |deltaX| then
        startX1 + (if 0 < deltaX then maxSwipeDistance else -maxSwipeDistance)
      else newX
    let localLimitX := screenWidth * (3/2)
    let localLimitY := screenHeight * (3/2)
    let lowX := startX1 - localLimitX
    let highX := startX1 + localLimitX
    -- world bounds resistance
    let newX :=
      if newX < bounds.minX then bounds.minX + (newX - bounds.minX) * RESISTANCE
      else if bounds.maxX < newX then
        bounds.maxX + (newX - bounds.maxX) * RESISTANCE
      else newX
    -- local overscroll protection
    let newX :=
      if newX < lowX then lowX + (newX - lowX) * RESISTANCE
      else if highX < newX then highX + (newX - highX) * RESISTANCE
      else newX
    let newY :=
      if ¬isSingleRow then
        let lowY := startY1 - localLimitY
        let highY := startY1 + localLimitY
        let newY :=
          if newY < bounds.minY then
            bounds.minY + (newY - bounds.minY) * RESISTANCE
          else if bounds.maxY < newY then
            bounds.maxY + (newY - bounds.maxY) * RESISTANCE
          else newY
        if newY < lowY then lowY + (newY - lowY) * RESISTANCE
        else if highY < newY then highY + (newY - highY) * RESISTANCE
        else newY
      else newY
    { x := newX, y := newY, startX := startX1, startY := startY1,
      activeAxis := activeAxis, wasDisabled := false, isSnapping := true }

/-! ### Frame evaluator (`useAnimatedStyle` worklet in `src/Aniview.tsx`)

The baked data is typed: numeric lanes hold rationals, color lanes hold
normalized color strings, event-lane outputs hold either (`EVal`).  The
returned style is a property map (`PropVal`): numbers are `JNum` so the
output type can even express a `NaN`/`Infinity` field — the theorems show
none ever occurs. -/

/-- A value stored in the baked home-property set or in an event lane's
output range: a number or a (color) string. -/
inductive EVal where
  | n (q : ℚ)
  | s (str : String)
deriving DecidableEq, Repr

/-- A value of the returned style object. -/
inductive PropVal where
  | num (v : JNum)
  | str (s : String)
  | pairWH (w h : Option ℚ)
deriving DecidableEq, Repr

/-- The returned style: flat properties plus the transform array (kept as a
separate field of the record; the source stores it under the `transform`
key of the same object). -/
structure Style where
  entries : List (String × PropVal)
  transform : List (String × PropVal)
deriving DecidableEq, Repr

/-- The `{opacity: 0}` short-circuit result. -/
def opacityZeroStyle : Style :=
  { entries := [("opacity", .num (.fin 0))], transform := [] }

/-- A baked spatial lane (interface `BakedLane`'s spatial counterpart in
the bake output): the fixed orthogonal coordinate, per-key value arrays
along the primary axis, and per-key constant flags. -/
structure Lane (α : Type) where
  fixed : ℚ
  values : List (List α)
  constFlags : List Bool
deriving DecidableEq, Repr

/-- A baked event lane (interface `BakedLane` in `src/Aniview.tsx`). -/
structure BakedLane where
  values : List ℚ
  outputRanges : List (List EVal)
  keys : List String
  persistent : Bool
deriving DecidableEq, Repr

/-- The base style split produced by `stripLayoutProps`. -/
structure BaseProps where
  rest : List (String × PropVal)
  transform : List (String × PropVal)
deriving DecidableEq, Repr

/-- The bake output (interface `BakedResult` in `src/Aniview.tsx`). -/
structure BakedResult where
  homeX : ℚ
  homeY : ℚ
  localX : ℚ
  localY : ℚ
  bakedH : List (Lane ℚ)
  bakedV : List (Lane ℚ)
  bakedCH : List (Lane String)
  bakedCV : List (Lane String)
  eventLanes : List (String × BakedLane)
  uniqueX : List ℚ
  uniqueY : List ℚ
  numericKeys : List String
  colorKeys : List String
  baseProps : BaseProps
  homeProps : List (String × EVal)
deriving DecidableEq, Repr

/-- `baked.homeProps[k] ?? 0` read in a numeric context (numeric keys hold
numbers in the baked data). -/
def homeNum (hp : List (String × EVal)) (k : String) : ℚ :=
  match getAssoc hp k with
  | some (.n q) => q
  | _ => 0

/-- `baked.homeProps[k]` read in a color (string) context. -/
def homeStr (hp : List (String × EVal)) (k : String) : String :=
  match getAssoc hp k with
  | some (.s s) => s
  | _ => ""

/-- Read an event-lane output entry as a number. -/
def evalToQ : EVal → ℚ
  | .n q => q
  | .s _ => 0

/-- Read an event-lane output entry as a string. -/
def evalToStr : EVal → String
  | .s s => s
  | .n q => qRender q

/-- The per-axis virtualization check of the evaluator (lines computing
`isVisibleX`/`isVisibleY`): the camera is within `1.5 × size` of the home
coordinate (`<=`), or strictly within `1.5 × size` of some keyframe
coordinate.  Comparisons follow JavaScript semantics (`false` on `NaN`). -/
def visibleAxis (home : ℚ) (uniq : List ℚ) (size : ℚ) (c : JNum) : Bool :=
  let threshold := size * (3/2)
  JNum.jle (JNum.jabs (JNum.sub c (.fin home))) (.fin threshold)
    || uniq.any (fun u => JNum.jlt (JNum.jabs (JNum.sub c (.fin u))) (.fin threshold))

/-- The presence computation of the evaluator: per-axis linear falloff over
`0.4 × viewport`, squared, multiplied (vertical forced to `1` for a
single-row grid).  The `!pX || isNaN(pX)` guards are identities on finite
numbers. -/
def computePresence (w h homeX homeY qx qy : ℚ) (isSingleRow : Bool) : ℚ :=
  let windowX := w * (2/5)
  let windowY := h * (2/5)
  let pX := 1 - min 1 (max 0 (|qx - homeX| / windowX))
  let pY := if isSingleRow then 1 else 1 - min 1 (max 0 (|qy - homeY| / windowY))
  let presenceX := pX ^ 2
  let presenceY := if isSingleRow then 1 else pY ^ 2
  presenceX * presenceY

/-- Result of `getLaneInfo`. -/
structure LaneInfo where
  l1idx : ℕ
  l2idx : ℕ
  mix : ℚ
  dist : ℚ
deriving DecidableEq, Repr

/-- The `while (i < lanes.length - 1 && pos > lanes[i].fixed) i++` scan of
`getLaneInfo` (fuel-bounded). -/
def laneScanAux (pos : ℚ) (fixeds : List ℚ) : ℕ → ℕ → ℕ
  | 0, i => i
  | fuel + 1, i =>
    if i < fixeds.length - 1 ∧ fixeds.getD i 0 < pos then
      laneScanAux pos fixeds fuel (i + 1)
    else i

/-- The lane scan started with full fuel. -/
def laneScan (pos : ℚ) (fixeds : List ℚ) (i : ℕ) : ℕ :=
  laneScanAux pos fixeds fixeds.length i

/-- `getLaneInfo` from the evaluator: picks the two bracketing lanes for
the orthogonal position, their blend factor and the distance to the
nearest one.  (`l1`/`l2` are always in bounds, so the null check of the
source cannot fire.) -/
def getLaneInfo {α : Type} (lanes : List (Lane α)) (pos : ℚ) :
    Option LaneInfo :=
  if lanes.length = 0 then none
  else
    let fixeds := lanes.map (·.fixed)
    let i := laneScan pos fixeds 0
    let l1idx := i - 1
    let l2idx := i
    let f1 := fixeds.getD l1idx 0
    let f2 := fixeds.getD l2idx 0
    let gap := f2 - f1
    let mix := max 0 (min 1 (if 1/10 < gap then (pos - f1) / gap else 0))
    some { l1idx := l1idx, l2idx := l2idx, mix := mix,
           dist := min |pos - f1| |pos - f2| }

/-- One key of the numeric `runSpatial` pass: interpolate along the two
bracketing horizontal lanes (shared segment `segX`), along the two
bracketing vertical lanes (`segY`), and blend by `hWeight`.  The `isNaN`
re-checks of the source are identities on the rational model. -/
def runSpatialNumKey (hp : List (String × EVal)) (lanesH lanesV : List (Lane ℚ))
    (laneH laneV : LaneInfo) (isNearH isNearV : Bool) (hWeight : ℚ)
    (segX segY : SegInfo) (k : String) (i : ℕ) : ℚ :=
  let home := homeNum hp k
  let interpAt := fun (lane : Lane ℚ) (seg : SegInfo) (o : List ℚ) =>
    if lane.constFlags.getD i false || seg.constant then o.getD seg.i 0
    else o.getD seg.i 0 + seg.p * (o.getD (seg.i + 1) 0 - o.getD seg.i 0)
  let vH :=
    if isNearH then
      match lanesH.get? laneH.l1idx, lanesH.get? laneH.l2idx with
      | some lL, some lR =>
        match lL.values.get? i, lR.values.get? i with
        | some o1, some o2 =>
          let r1 := interpAt lL segX o1
          let r2 := interpAt lR segX o2
          r1 + laneH.mix * (r2 - r1)
        | _, _ => home
      | _, _ => home
    else home
  let vV :=
    if isNearV then
      match lanesV.get? laneV.l1idx, lanesV.get? laneV.l2idx with
      | some lL, some lR =>
        match lL.values.get? i, lR.values.get? i with
        | some o1, some o2 =>
          let r1 := interpAt lL segY o1
          let r2 := interpAt lR segY o2
          r1 + laneV.mix * (r2 - r1)
        | _, _ => home
      | _, _ => home
    else home
  if isNearH ∧ isNearV then vH * hWeight + vV * (1 - hWeight)
  else if isNearH then vH else vV

/-- One key of the color `runSpatial` pass (the `isColor` branch of the
same closure, using `smartInterpolateColor`). -/
def runSpatialColKey (hp : List (String × EVal))
    (lanesH lanesV : List (Lane String)) (laneH laneV : LaneInfo)
    (isNearH isNearV : Bool) (hWeight : ℚ) (segX segY : SegInfo)
    (uniqX uniqY : List ℚ) (qx qy : ℚ) (k : String) (i : ℕ) : String :=
  let home := homeStr hp k
  let interpAt := fun (lane : Lane String) (seg : SegInfo) (cam : ℚ)
      (uniq : List ℚ) (o : List String) =>
    if lane.constFlags.getD i false || seg.constant then o.getD seg.i ""
    else smartInterpolateColor cam uniq o
  let vH :=
    if isNearH then
      match lanesH.get? laneH.l1idx, lanesH.get? laneH.l2idx with
      | some lL, some lR =>
        match lL.values.get? i, lR.values.get? i with
        | some o1, some o2 =>
          let r1 := interpAt lL segX qx uniqX o1
          let r2 := interpAt lR segX qx uniqX o2
          smartInterpolateColor laneH.mix [0, 1] [r1, r2]
        | _, _ => home
      | _, _ => home
    else home
  let vV :=
    if isNearV then
      match lanesV.get? laneV.l1idx, lanesV.get? laneV.l2idx with
      | some lL, some lR =>
        match lL.values.get? i, lR.values.get? i with
        | some o1, some o2 =>
          let r1 := interpAt lL segY qy uniqY o1
          let r2 := interpAt lR segY qy uniqY o2
          smartInterpolateColor laneV.mix [0, 1] [r1, r2]
        | _, _ => home
      | _, _ => home
    else home
  if isNearH ∧ isNearV then smartInterpolateColor hWeight [0, 1] [vV, vH]
  else if isNearH then vH else vV

/-- `hasDuplicate` scan of the event phase: some adjacent pair of lane
trigger values differs by less than `0.0001`. -/
def hasDuplicateAdj : List ℚ → Bool
  | a :: b :: t => if |b - a| < 1/10000 then true else hasDuplicateAdj (b :: t)
  | _ => false

/-- The numeric branch of the event phase for one key: the lane-interpolated
value with the degenerate-domain fallbacks of the source (single-point
lanes and duplicate adjacent trigger values). -/
def evalNumericLaneKey (val : ℚ) (values range : List ℚ) (home : ℚ) : ℚ :=
  let laneLen := values.length
  if laneLen = 1 then
    let v1 := values.getD 0 0
    if 1/1000 < |v1| then reInterpolate val [0, v1] [home, range.getD 0 0]
    else if 0 < val then range.getD 0 0 else home
  else if 2 ≤ laneLen then
    if hasDuplicateAdj values then range.getD 0 0
    else reInterpolate val values range
  else home

/-- The accumulators of the event phase: `eventResults` (numeric) and
`eventColorResults`. -/
structure EventPhaseOut where
  nums : List (String × ℚ)
  cols : List (String × String)
deriving DecidableEq, Repr

/-- One event lane of the event phase: look up the driver (skip the lane if
absent), weight by presence unless persistent, and accumulate per key.
The numeric accumulation mirrors `if (!eventResults[k]) ... else ... +=`
(a present value `0` is overwritten, not added to, by JavaScript
truthiness). -/
def eventLaneStep (hp : List (String × EVal)) (colorKeys : List String)
    (presence : ℚ) (events : List (String × ℚ)) (acc : EventPhaseOut)
    (lane : String × BakedLane) : EventPhaseOut :=
  match getAssoc events lane.1 with
  | none => acc
  | some val =>
    let l := lane.2
    let laneWeight := if l.persistent then 1 else presence
    l.keys.enum.foldl
      (fun acc2 ik =>
        let i := ik.1
        let k := ik.2
        if colorKeys.contains k then
          let range := (l.outputRanges.getD i []).map evalToStr
          let result :=
            if l.values.length < 2 then range.getD 0 ""
            else reInterpolateColor val l.values range
          let res :=
            if laneWeight < 99/100 then
              smartInterpolateColor laneWeight [0, 1] [homeStr hp k, result]
            else result
          { acc2 with cols := setAssoc acc2.cols k res }
        else
          let range := (l.outputRanges.getD i []).map evalToQ
          let home := homeNum hp k
          let result := evalNumericLaneKey val l.values range home
          let diff := (result - home) * laneWeight
          let nums' :=
            match getAssoc acc2.nums k with
            | some cur =>
              if cur = 0 then setAssoc acc2.nums k (home + diff)
              else setAssoc acc2.nums k (cur + diff)
            | none => setAssoc acc2.nums k (home + diff)
          { acc2 with nums := nums' })
      acc

/-- The event phase: fold `eventLaneStep` over all event lanes. -/
def eventPhase (lanes : List (String × BakedLane))
    (events : List (String × ℚ)) (colorKeys : List String)
    (hp : List (String × EVal)) (presence : ℚ) : EventPhaseOut :=
  lanes.foldl (eventLaneStep hp colorKeys presence events) ⟨[], []⟩

/-- `compositeNumeric` from the evaluator: combine the spatial value with
the event result — ratio against home for multiplicative keys (`opacity`,
`_tr_scale`, with `homeVal || 1` guarding a zero home), delta-add for
everything else. -/
def compositeNumeric (k : String) (base : ℚ)
    (eventResults : List (String × ℚ)) (hp : List (String × EVal)) : ℚ :=
  match getAssoc eventResults k with
  | none => base
  | some evVal =>
    let homeVal := homeNum hp k
    let evDiff := evVal - homeVal
    if k = "opacity" ∨ k = "_tr_scale" then
      base * (evVal / (if homeVal = 0 then 1 else homeVal))
    else base + evDiff

/-- Update a `width`/`height` component of a `shadowOffset`-style pair
property (`props[b] = { ...props[b], [component]: res }`). -/
def setPairComponent (props : List (String × PropVal)) (b : String)
    (isWidth : Bool) (res : ℚ) : List (String × PropVal) :=
  let (w0, h0) := match getAssoc props b with
    | some (.pairWH w h) => (w, h)
    | _ => (none, none)
  if isWidth then setAssoc props b (.pairWH (some res) h0)
  else setAssoc props b (.pairWH w0 (some res))

/-- The main body of the evaluator for a finite camera position: presence,
lane lookups, spatial phase, event phase, composition and final property
assembly, translated statement by statement from the worklet. -/
def evaluateFinite (baked : BakedResult) (dims : Dims) (qx qy : ℚ)
    (eventVals : List (String × ℚ)) (isSingleRow : Bool) : Style :=
  let presence := computePresence dims.width dims.height baked.homeX
    baked.homeY qx qy isSingleRow
  match getLaneInfo baked.bakedH qy, getLaneInfo baked.bakedV qx with
  | some laneH, some laneV =>
    let viewportSize := dims.width
    let isNearH := laneH.dist < viewportSize
    let isNearV := laneV.dist < viewportSize
    if ¬isNearH ∧ ¬isNearV then opacityZeroStyle
    else
      let props0 := baked.baseProps.rest
      let props0 := setAssoc props0 "position" (.str "absolute")
      let props0 := setAssoc props0 "width"
        ((getAssoc baked.baseProps.rest "width").getD (.num (.fin dims.width)))
      let props0 := setAssoc props0 "height"
        ((getAssoc baked.baseProps.rest "height").getD (.num (.fin dims.height)))
      let props0 := setAssoc props0 "left" (.num (.fin 0))
      let props0 := setAssoc props0 "top" (.num (.fin 0))
      let hWeight :=
        if isNearV then
          if isNearH then laneV.dist / (laneH.dist + laneV.dist + 1/1000)
          else 0
        else 1
      let segX := getSegmentInfo qx baked.uniqueX
      let segY := getSegmentInfo qy baked.uniqueY
      let hp := baked.homeProps
      let spatialNums := baked.numericKeys.enum.map
        (fun ik => (ik.2, runSpatialNumKey hp baked.bakedH baked.bakedV laneH
          laneV isNearH isNearV hWeight segX segY ik.2 ik.1))
      let spatialCols := baked.colorKeys.enum.map
        (fun ik => (ik.2, runSpatialColKey hp baked.bakedCH baked.bakedCV laneH
          laneV isNearH isNearV hWeight segX segY baked.uniqueX baked.uniqueY
          qx qy ik.2 ik.1))
      let ev := eventPhase baked.eventLanes eventVals baked.colorKeys hp presence
      let finalX0 := compositeNumeric "worldX"
        ((getAssoc spatialNums "worldX").getD 0) ev.nums hp
      let finalY0 := compositeNumeric "worldY"
        ((getAssoc spatialNums "worldY").getD 0) ev.nums hp
      let finalOp := max 0 (min 1 (compositeNumeric "opacity"
        ((getAssoc spatialNums "opacity").getD 1) ev.nums hp))
      let allKeys := baked.numericKeys ++ baked.colorKeys
      let finish := allKeys.foldl
        (fun (st : List (String × PropVal) × List (String × PropVal) × ℚ × ℚ) k =>
          let (props, trAcc, fx, fy) := st
          if k = "worldX" ∨ k = "worldY" ∨ k = "opacity" then st
          else if baked.colorKeys.contains k then
            let res := match getAssoc ev.cols k with
              | some s => s
              | none => match getAssoc spatialCols k with
                | some s => s
                | none => homeStr hp k
            (setAssoc props k (.str res), trAcc, fx, fy)
          else
            let res := compositeNumeric k ((getAssoc spatialNums k).getD 0)
              ev.nums hp
            -- the `isNaN(res)` fallback to the home value is an identity
            -- on the rational model
            if k = "left" ∨ k = "marginLeft" then
              (props, trAcc, fx + (res - homeNum hp k), fy)
            else if k = "top" ∨ k = "marginTop" then
              (props, trAcc, fx, fy + (res - homeNum hp k))
            else if jsStartsWith k "_tr_" then
              let tName := charsStr (k.data.drop 4)
              let tVal :=
                if tName = "rotate" ∨ tName = "rotateX" ∨ tName = "rotateY"
                    ∨ tName = "rotateZ" then
                  PropVal.str (qRender res ++ "deg")
                else PropVal.num (.fin res)
              (props, trAcc ++ [(tName, tVal)], fx, fy)
            else if k = "shadowOffsetWidth" ∨ k = "shadowOffsetHeight"
                ∨ k = "textShadowOffsetWidth" ∨ k = "textShadowOffsetHeight" then
              let b := if jsStartsWith k "shadowOffset" then "shadowOffset"
                else "textShadowOffset"
              -- `k.endsWith('Width')`, decided on the four guarded keys
              let isWidth := k = "shadowOffsetWidth" ∨ k = "textShadowOffsetWidth"
              (setPairComponent props b isWidth res, trAcc, fx, fy)
            else (setAssoc props k (.num (.fin res)), trAcc, fx, fy))
        (props0, [], finalX0, finalY0)
      let (props1, trAcc, finalX, finalY) := finish
      let props2 := setAssoc props1 "opacity" (.num (.fin finalOp))
      -- `const sx = cameraX || 0` is the identity on finite cameras except
      -- at 0, where it is also the identity; likewise the isNaN guards
      let tx := finalX - qx
      let ty := finalY - qy
      { entries := props2,
        transform := ("translateX", .num (.fin tx))
          :: ("translateY", .num (.fin ty))
          :: trAcc ++ baked.baseProps.transform }
  | _, _ => opacityZeroStyle

/-- The full evaluator (`useAnimatedStyle` body): virtualization cull,
zero-dimension guard, then the finite evaluation.  A non-finite camera
never passes the cull comparisons (see `visibleAxis_nonFinite`), so the
fallback arm for a non-finite camera inside the visible branch is
unreachable and conservatively returns the same `{opacity: 0}`. -/
def evaluate (baked : BakedResult) (dims : Dims) (cameraX cameraY : JNum)
    (eventVals : List (String × ℚ)) (isSingleRow : Bool) : Style :=
  if visibleAxis baked.homeX baked.uniqueX dims.width cameraX
      && visibleAxis baked.homeY baked.uniqueY dims.height cameraY then
    if dims.width ≤ 0 ∨ dims.height ≤ 0 then opacityZeroStyle
    else
      match cameraX, cameraY with
      | .fin qx, .fin qy => evaluateFinite baked dims qx qy eventVals isSingleRow
      | _, _ => opacityZeroStyle
  else opacityZeroStyle

/-! ### AniviewConfig (`src/aniviewConfig.tsx`) -/

/-- A page reference: a numeric id or a semantic name. -/
inductive PageRef where
  | num (n : ℤ)
  | str (s : String)
deriving DecidableEq, Repr

/-- The layout-engine state captured by `AniviewConfig` (grid matrix,
resolved default page, semantic name map, per-axis overlap arrays). -/
structure Config where
  layout : List (List ℕ)
  defaultPage : ℤ
  pageMap : List (String × ℕ)
  rowOverlaps : List ℚ
  colOverlaps : List ℚ
deriving DecidableEq, Repr

/-- `AniviewConfig.resolvePageId`: numeric passthrough, name-map lookup,
`parseInt` fallback, default `0`. -/
def resolvePageId (pageMap : List (String × ℕ)) (p : PageRef) : ℤ :=
  match p with
  | .num n => n
  | .str s =>
    match getAssoc pageMap s with
    | some v => (v : ℤ)
    | none =>
      match jsParseIntDec s with
      | some z => z
      | none => 0

/-- `AniviewConfig.getPageOffset` (resolve, then delegate to the math
core). -/
def cfgGetPageOffset (cfg : Config) (p : PageRef) (dims : Dims) : Offset :=
  getPageOffset (resolvePageId cfg.pageMap p) cfg.layout dims cfg.defaultPage
    cfg.rowOverlaps cfg.colOverlaps

/-- `AniviewConfig.getPages`: all active linear indices in row-major
order. -/
def getPages (layout : List (List ℕ)) : List ℕ :=
  if layout.length = 0 then [0]
  else
    let cols := (layout.headD []).length
    layout.enum.foldl
      (fun acc rc =>
        acc ++ rc.2.enum.filterMap
          (fun cv => if cv.2 = 1 then some (rc.1 * cols + cv.1) else none))
      []

/-- A declared keyframe (`AniviewFrame`): optional spatial target page,
optional event name / trigger value, the shortcut properties, and the
style payload (opaque to `register`, which never reads it). -/
structure Frame where
  page : Option PageRef
  event : Option String
  value : Option ℚ
  opacity : Option ℚ
  scale : Option ℚ
  rotate : Option ℚ
  persistent : Bool
  style : List (String × EVal)
deriving DecidableEq, Repr

/-- A baked keyframe (`BakedFrame`): the spread of the declared frame plus
the resolved `worldX`/`worldY`. -/
structure BakedFrame where
  page : Option PageRef
  event : Option String
  value : Option ℚ
  opacity : Option ℚ
  scale : Option ℚ
  rotate : Option ℚ
  persistent : Bool
  style : List (String × EVal)
  worldX : ℚ
  worldY : ℚ
deriving DecidableEq, Repr

/-- `{...frame, worldX, worldY}` — the spatial bake of a frame. -/
def bakeSpatial (frame : Frame) (wx wy : ℚ) : BakedFrame :=
  { page := frame.page, event := frame.event, value := frame.value,
    opacity := frame.opacity, scale := frame.scale, rotate := frame.rotate,
    persistent := frame.persistent, style := frame.style,
    worldX := wx, worldY := wy }

/-- `{...frame, worldX: 0, worldY: 0, value: frame.value ?? 0}` — the copy
of a frame pushed onto its event lane. -/
def bakeEvent (frame : Frame) : BakedFrame :=
  { page := frame.page, event := frame.event,
    value := some (frame.value.getD 0),
    opacity := frame.opacity, scale := frame.scale, rotate := frame.rotate,
    persistent := frame.persistent, style := frame.style,
    worldX := 0, worldY := 0 }

/-- Append a frame to the lane of `name` (creating the lane on first use,
preserving JavaScript object insertion order). -/
def appendLane (lanes : List (String × List BakedFrame)) (name : String)
    (bf : BakedFrame) : List (String × List BakedFrame) :=
  match lanes with
  | [] => [(name, [bf])]
  | (n, fs) :: t =>
    if n = name then (n, fs ++ [bf]) :: t
    else (n, fs) :: appendLane t name bf

/-- `(a.value || 0)` — the sort key of the event-lane comparator. -/
def laneValueOf (bf : BakedFrame) : ℚ := bf.value.getD 0

/-- Stable insertion: an element moves before the first strictly greater
one, so frames with equal trigger values keep their original order. -/
def laneInsert (a : BakedFrame) : List BakedFrame → List BakedFrame
  | [] => [a]
  | b :: l =>
    if laneValueOf a < laneValueOf b then a :: b :: l
    else b :: laneInsert a l

/-- The `sort((a, b) => (a.value || 0) - (b.value || 0))` pass: a stable
ascending sort by trigger value (JavaScript `Array.prototype.sort` is
stable, so any stable sort by the same key models it exactly). -/
def sortLane : List BakedFrame → List BakedFrame
  | [] => []
  | a :: l => laneInsert a (sortLane l)

/-- The result of `AniviewConfig.register`. -/
structure RegisterResult where
  homeOffset : Offset
  bakedFrames : List (String × BakedFrame)
  eventLanes : List (String × List BakedFrame)
  localLayout : Offset
deriving DecidableEq, Repr

/-- The spatial bake of one frame: resolve the target page (the frame's
`page` if declared, else the home page), and store `worldX`/`worldY` as
the target page's world offset minus the home page's world offset. -/
def spatialBakeOf (cfg : Config) (dims : Dims) (resolvedHomeId : ℤ)
    (homeOffset : Offset) (frame : Frame) : BakedFrame :=
  let targetPageId := match frame.page with
    | some p => resolvePageId cfg.pageMap p
    | none => resolvedHomeId
  let targetOffset := getPageOffset targetPageId cfg.layout dims
    cfg.defaultPage cfg.rowOverlaps cfg.colOverlaps
  bakeSpatial frame (targetOffset.x - homeOffset.x)
    (targetOffset.y - homeOffset.y)

/-- One keyframe of the `register` fold: the spatial classification
(`frame.page !== undefined || frame.event === undefined`) storing the
spatial bake, and the event-lane push (`if (frame.event)` — JavaScript
truthiness, so an empty event name is pushed nowhere). -/
def registerStep (cfg : Config) (dims : Dims) (resolvedHomeId : ℤ)
    (homeOffset : Offset)
    (acc : List (String × BakedFrame) × List (String × List BakedFrame))
    (kf : String × Frame) :
    List (String × BakedFrame) × List (String × List BakedFrame) :=
  let bfs :=
    if kf.2.page ≠ none ∨ kf.2.event = none then
      setAssoc acc.1 kf.1 (spatialBakeOf cfg dims resolvedHomeId homeOffset kf.2)
    else acc.1
  let lanes :=
    match kf.2.event with
    | some ev => if ev ≠ "" then appendLane acc.2 ev (bakeEvent kf.2)
      else acc.2
    | none => acc.2
  (bfs, lanes)

/-- `AniviewConfig.register`: resolve the home offset, fold
`registerStep` over the declared keyframes, then sort each event lane
ascending by trigger value.  The keyframes arrive as the entry list the
source builds from either the array or the record form. -/
def register (cfg : Config) (pageId : PageRef) (dims : Dims)
    (keyframes : List (String × Frame)) (localLayout : Option Offset) :
    RegisterResult :=
  let resolvedHomeId := resolvePageId cfg.pageMap pageId
  let homeOffset := getPageOffset resolvedHomeId cfg.layout dims
    cfg.defaultPage cfg.rowOverlaps cfg.colOverlaps
  let localX := match localLayout with
    | some l => l.x
    | none => 0
  let localY := match localLayout with
    | some l => l.y
    | none => 0
  let folded := keyframes.foldl (registerStep cfg dims resolvedHomeId homeOffset)
    ([], [])
  { homeOffset := homeOffset,
    bakedFrames := folded.1,
    eventLanes := folded.2.map (fun nl => (nl.1, sortLane nl.2)),
    localLayout := { x := localX, y := localY } }

/-! ### Gesture state machine: `onEnd` / `onFinalize` -/

/-- A precomputed snap point of `generateGesture`. -/
structure SnapPoint where
  id : ℕ
  x : ℚ
  y : ℚ
  row : ℕ
  col : ℕ
deriving DecidableEq, Repr

/-- The `snapPointsProcessed` precomputation of `generateGesture`. -/
def mkSnapPoints (cfg : Config) (dims : Dims) : List SnapPoint :=
  let rowLength := max 1 ((cfg.layout.headD []).length)
  (getPages cfg.layout).map (fun (pageId : ℕ) =>
    let offset := getPageOffset (pageId : ℤ) cfg.layout dims cfg.defaultPage
      cfg.rowOverlaps cfg.colOverlaps
    { id := pageId, x := offset.x, y := offset.y,
      row := pageId / rowLength, col := pageId % rowLength })

/-- The anchor-page scan at the top of `onEnd` (nearest snap point to the
gesture start; first minimum wins).  The source compares
`Math.sqrt`-distances starting from `Infinity`; the embedding compares
squared distances (`none` models the initial `Infinity`), which decides
the same comparisons. -/
structure AnchorInfo where
  row : ℕ
  col : ℕ
  id : ℤ
  distSq : Option ℚ
deriving DecidableEq, Repr

/-- Scan all snap points for the one nearest to `(sx, sy)`. -/
def anchorScan (pts : List SnapPoint) (sx sy : ℚ) : AnchorInfo :=
  pts.foldl
    (fun a p =>
      let d := (sx - p.x) ^ 2 + (sy - p.y) ^ 2
      match a.distSq with
      | none => { row := p.row, col := p.col, id := (p.id : ℤ), distSq := some d }
      | some cur =>
        if d < cur then
          { row := p.row, col := p.col, id := (p.id : ℤ), distSq := some d }
        else a)
    { row := 0, col := 0, id := -1, distSq := none }

/-- The axis-constrained nearest-snap-point fallback of `onEnd` (initial
`minDistance = Infinity` modelled by `none`; the incoming target triple is
kept when every point is filtered out). -/
def fallbackScan (pts : List SnapPoint) (activeAxis : ℕ)
    (anchorRow anchorCol : ℕ) (cx cy : ℚ) (initX initY : ℚ) (initId : ℤ) :
    ℚ × ℚ × ℤ :=
  (pts.foldl
    (fun (a : Option ℚ × ℚ × ℚ × ℤ) p =>
      if activeAxis = 1 ∧ p.row ≠ anchorRow then a
      else if activeAxis = 2 ∧ p.col ≠ anchorCol then a
      else
        let d := (cx - p.x) ^ 2 + (cy - p.y) ^ 2
        match a.1 with
        | none => (some d, p.x, p.y, (p.id : ℤ))
        | some cur =>
          if d < cur then (some d, p.x, p.y, (p.id : ℤ)) else a)
    (none, initX, initY, initId)).2

/-- The outcome of `onEnd`: the spring destination, the resolved target
page, the page-change notifications fired (via `runOnJS(onPageChange)`),
and the (possibly boundary-damped) spring velocities. -/
structure EndResult where
  targetX : ℚ
  targetY : ℚ
  targetId : ℤ
  fired : List ℤ
  springVelocityX : ℚ
  springVelocityY : ℚ
deriving DecidableEq, Repr

/-- The `.onEnd` handler of the gesture built by
`AniviewConfig.generateGesture`, as a pure function.  `none` models the
two early returns (gesture disabled / no snap points).  Distance
comparisons are on squares as in `anchorScan`; `minStartDist <
screenWidth * 0.3` is decided as `0 ≤ screenWidth ∧ dist² < (0.3·w)²`. -/
def onEnd (bounds : WorldBounds) (screenWidth screenHeight : ℚ)
    (isSingleRow : Bool) (snapPoints : List SnapPoint)
    (gestureEnabled : Option Bool) (st : GestureState) (e : PanEvent) :
    Option EndResult :=
  if gestureEnabled = some false then none
  else if snapPoints.length = 0 then none
  else
    -- VELOCITY_THRESHOLD = 200
    let distanceThresholdX := screenWidth * (8/100)
    let distanceThresholdY := screenHeight * (8/100)
    let anchor := anchorScan snapPoints st.startX st.startY
    let startFound : Bool := match anchor.distSq with
      | some d => decide (0 ≤ screenWidth) && decide (d < (screenWidth * (3/10)) ^ 2)
      | none => false
    let intentRight := e.velocityX < -200 ∨ e.translationX < -distanceThresholdX
    let intentLeft := 200 < e.velocityX ∨ distanceThresholdX < e.translationX
    let intentDown := e.velocityY < -200 ∨ e.translationY < -distanceThresholdY
    let intentUp := 200 < e.velocityY ∨ distanceThresholdY < e.translationY
    let neighborTarget : Option SnapPoint :=
      if startFound ∧ (intentRight ∨ intentLeft
          ∨ (¬isSingleRow ∧ (intentDown ∨ intentUp))) then
        let targetRow : ℤ :=
          if st.activeAxis = 2 ∧ ¬isSingleRow then
            if intentDown then (anchor.row : ℤ) + 1
            else if intentUp then (anchor.row : ℤ) - 1
            else (anchor.row : ℤ)
          else (anchor.row : ℤ)
        let targetCol : ℤ :=
          if st.activeAxis = 1 then
            if intentRight then (anchor.col : ℤ) + 1
            else if intentLeft then (anchor.col : ℤ) - 1
            else (anchor.col : ℤ)
          else (anchor.col : ℤ)
        snapPoints.find?
          (fun p => decide ((p.row : ℤ) = targetRow ∧ (p.col : ℤ) = targetCol))
      else none
    let t0 : ℚ × ℚ × ℤ := match neighborTarget with
      | some p => (p.x, p.y, (p.id : ℤ))
      | none => (-1, -1, -1)
    -- distance-based fallback, guarded by the `targetX === -1` sentinel
    let t1 := if t0.1 = -1 then
        fallbackScan snapPoints st.activeAxis anchor.row anchor.col st.x st.y
          t0.1 t0.2.1 t0.2.2
      else t0
    -- final safety: stay at the anchor
    let t2 : ℚ × ℚ × ℤ :=
      if t1.2.2 = -1 then
        match snapPoints.find? (fun p => decide ((p.id : ℤ) = anchor.id)) with
        | some p => (p.x, p.y, anchor.id)
        | none => (t1.1, t1.2.1, anchor.id)
      else t1
    let fired := if t2.2.2 ≠ -1 ∧ t2.2.2 ≠ anchor.id then [t2.2.2] else []
    let isBoundaryX := t2.1 ≤ bounds.minX ∨ bounds.maxX ≤ t2.1
    let isBoundaryY := t2.2.1 ≤ bounds.minY ∨ bounds.maxY ≤ t2.2.1
    -- velocityDamping = 0.5; for a single-row grid the vertical spring is
    -- issued without a velocity override
    some { targetX := t2.1, targetY := t2.2.1, targetId := t2.2.2,
           fired := fired,
           springVelocityX := if isBoundaryX then -e.velocityX * (1/2)
             else -e.velocityX,
           springVelocityY := if ¬isSingleRow then
               (if isBoundaryY then -e.velocityY * (1/2) else -e.velocityY)
             else 0 }

/-- The `resolveId` worklet helper captured by `generateGesture` (numeric
passthrough, name-map lookup, fallback `0` — no `parseInt` here, unlike
`resolvePageId`). -/
def resolveIdWorklet (pageMap : List (String × ℕ)) (p : PageRef) : ℤ :=
  match p with
  | .num n => n
  | .str s =>
    match getAssoc pageMap s with
    | some v => (v : ℤ)
    | none => 0

/-- The outcome of `onFinalize`: an optional corrective spring target.
The handler contains no page-change call, so its `fired` list is empty by
construction (visible in the translation). -/
structure FinalizeResult where
  springTarget : Option (ℚ × ℚ)
  fired : List ℤ
deriving DecidableEq, Repr

/-- The `.onFinalize` handler of the gesture: tap/cancel guard, nearest
snap point from the final camera position, and the yield-to-programmatic
conflict resolution. -/
def onFinalize (snapPoints : List SnapPoint) (pageMap : List (String × ℕ))
    (lastTargetId : Option PageRef) (gestureEnabled : Option Bool)
    (st : GestureState) (success : Bool) : FinalizeResult :=
  if ¬success ∨ st.activeAxis = 0 then ⟨none, []⟩
  else if gestureEnabled = some false then ⟨none, []⟩
  else if st.isSnapping then ⟨none, []⟩
  else
    let fin := snapPoints.foldl
      (fun (a : Option ℚ × ℚ × ℚ × ℤ) p =>
        let d := (st.x - p.x) ^ 2 + (st.y - p.y) ^ 2
        match a.1 with
        | none => (some d, p.x, p.y, (p.id : ℤ))
        | some cur =>
          if d < cur then (some d, p.x, p.y, (p.id : ℤ)) else a)
      (none, st.x, st.y, -1)
    let targetX := fin.2.1
    let targetY := fin.2.2.1
    let targetId := fin.2.2.2
    match lastTargetId with
    | some ref =>
      let currentProgrammaticId := resolveIdWorklet pageMap ref
      let anchor := anchorScan snapPoints st.startX st.startY
      if targetId = anchor.id ∧ anchor.id ≠ currentProgrammaticId then ⟨none, []⟩
      else ⟨some (targetX, targetY), []⟩
    | none => ⟨some (targetX, targetY), []⟩

/-- Is every numeric field of a property value finite? -/
def propValFinite : PropVal → Bool
  | .num v => v.isFinite
  | _ => true

/-- Does the output style contain only finite numeric fields (no `NaN`, no
`Infinity`)? -/
def styleNumsFinite (s : Style) : Bool :=
  (s.entries.all fun kv => propValFinite kv.2)
    && (s.transform.all fun kv => propValFinite kv.2)

/-! ## Theorems -/

/-- C1: the lock mask is documented (class documentation of
`AniviewConfig.generateGesture`, the `AniviewLock` helper and the
`useAniviewLock` hook) as four directional bits — bit0 (1) left,
bit1 (2) right, bit2 (4) up, bit3 (8) down — each gating exactly its own
pan direction.  The `onUpdate` handler instead reads only bits 0 and 1
(`lockMask.value & 1` as a whole-horizontal block, `lockMask.value & 2` as
a whole-vertical block) and never reads bits 2 and 3.  Evaluating the
handler at the failing inputs: with mask `4` (`up: true`, so upward pans
should not be honored) a vertical pan moves the camera in both vertical
directions, and with mask `2` (`right: true`, so both vertical directions
should be honored) vertical movement is suppressed in both directions. -/
theorem C1_lock_mask_direction_bug :
    let bnds : WorldBounds := ⟨-10000, 10000, -10000, 10000⟩
    let st : GestureState :=
      { x := 0, y := 0, startX := 0, startY := 0, activeAxis := 0,
        wasDisabled := false, isSnapping := false }
    let panUp : PanEvent :=
      { translationX := 0, translationY := -50, velocityX := 0, velocityY := 0 }
    let panDown : PanEvent :=
      { translationX := 0, translationY := 50, velocityX := 0, velocityY := 0 }
    let maskUp := aniviewLockMask false false true false
    let maskRight := aniviewLockMask false true false false
    (onUpdate bnds 400 800 false (some maskUp) (some true) st panUp).y = 50
    ∧ (onUpdate bnds 400 800 false (some maskUp) (some true) st panDown).y = -50
    ∧ (onUpdate bnds 400 800 false (some maskRight) (some true) st panUp).y = 0
    ∧ (onUpdate bnds 400 800 false (some maskRight) (some true) st panDown).y = 0 :=
  ⟨by with_unfolding_all rfl, by with_unfolding_all rfl,
   by with_unfolding_all rfl, by with_unfolding_all rfl⟩

/-- C9 counterexample: the claim says every input string that cannot be
parsed as hex/rgb/hsl/`transparent` maps to fully-transparent black.
But a `#`-prefixed string with invalid hex digits takes the hex branch,
where `parseInt` yields `NaN`, and the result is `rgba(NaN,NaN,NaN,1)` —
not `rgba(0,0,0,0)`. -/
theorem C9_hash_garbage_counterexample :
    normalizeColorToRgba "#zzz" = "rgba(NaN,NaN,NaN,1)"
    ∧ normalizeColorToRgba "#zzz" ≠ "rgba(0,0,0,0)" := by
  have h : normalizeColorToRgba "#zzz" = "rgba(NaN,NaN,NaN,1)" := by
    with_unfolding_all rfl
  exact ⟨h, by rw [h]; decide⟩

/-- C9 (amended): color normalization is total; every input string that is
not `transparent` (or empty), does not start with `#`, and matches neither
the `rgb[a]()` nor the `hsl[a]()` pattern maps to fully-transparent black
`rgba(0,0,0,0)` (strings starting with `#` are always parsed as hex, with
`NaN` channels for malformed digits); and
`normalizeColorToRgba "transparent"` equals
`normalizeColorToRgba "rgba(0,0,0,0)"`. -/
theorem C9_normalize_fallback (c : String)
    (h1 : c ≠ "transparent")
    (h2 : jsStartsWith c "#" = false)
    (h3 : findRgb c.data = none)
    (h4 : findHsl c.data = none) :
    normalizeColorToRgba c = "rgba(0,0,0,0)"
    ∧ normalizeColorToRgba "transparent" = normalizeColorToRgba "rgba(0,0,0,0)" := by
  refine ⟨?_, by with_unfolding_all rfl⟩
  unfold normalizeColorToRgba
  by_cases hc : c = ""
  · simp [hc]
  · rw [if_neg (by simp [hc, h1]), if_neg (by simp [h2]), h3, h4]

/-- C9 witness. -/
theorem C9_normalize_fallback_witness :
    normalizeColorToRgba "not-a-color" = "rgba(0,0,0,0)"
    ∧ normalizeColorToRgba "transparent" = normalizeColorToRgba "rgba(0,0,0,0)" :=
  C9_normalize_fallback "not-a-color" (by decide) (by with_unfolding_all rfl)
    (by with_unfolding_all rfl) (by with_unfolding_all rfl)

/-- C7 counterexample: the claim says a degenerate lane evaluates to the
endpoint output nearest to the driver value.  For the lane with trigger
values `[0, 10, 10, 20]`, outputs `[1, 2, 3, 4]`, home value `1` and
driver value `20`, the nearest endpoint is the one at trigger `20`
(distance `0`) with output `4`, but the evaluator returns the *first*
endpoint's output `1`. -/
theorem C7_not_nearest_endpoint_counterexample :
    evalNumericLaneKey 20 [0, 10, 10, 20] [1, 2, 3, 4] 1 = 1
    ∧ |(20 : ℚ) - 20| < |(20 : ℚ) - 0|
    ∧ evalNumericLaneKey 20 [0, 10, 10, 20] [1, 2, 3, 4] 1 ≠ 4 := by
  have h : evalNumericLaneKey 20 [0, 10, 10, 20] [1, 2, 3, 4] 1 = 1 := by
    with_unfolding_all rfl
  refine ⟨h, by norm_num, by rw [h]; norm_num⟩

/-- C7 (amended): for every degenerate interpolation domain the evaluator
never performs the general segment interpolation (so no division by a
zero-length segment): a single-point lane with trigger value within
`0.001` of zero yields the lane output when the driver is positive and
the home value otherwise; a single-point lane with `|trigger| > 0.001`
interpolates between the home value (at driver `0`) and the lane output
(at the trigger), clamped; and a lane with (nearly) equal adjacent
trigger values yields the first endpoint's output. -/
theorem C7_degenerate_fallbacks (val v1 home : ℚ) (range values : List ℚ) :
    (evalNumericLaneKey val [v1] range home =
      if 1/1000 < |v1| then reInterpolate val [0, v1] [home, range.getD 0 0]
      else if 0 < val then range.getD 0 0 else home)
    ∧ (2 ≤ values.length → hasDuplicateAdj values = true →
        evalNumericLaneKey val values range home = range.getD 0 0) := by
  constructor
  · simp [evalNumericLaneKey]
  · intro h2 hd
    unfold evalNumericLaneKey
    rw [if_neg (by omega), if_pos h2, if_pos hd]

/-- C7 witness. -/
theorem C7_degenerate_fallbacks_witness :
    evalNumericLaneKey 7 [5] [9] 1 = reInterpolate 7 [0, 5] [1, 9]
    ∧ evalNumericLaneKey 20 [0, 10, 10, 20] [5, 6, 7, 8] 1 = 5 := by
  constructor
  · have h := (C7_degenerate_fallbacks 7 5 1 [9] []).1
    rw [h, if_pos (by norm_num)]
    rfl
  · have h := (C7_degenerate_fallbacks 20 5 1 [5, 6, 7, 8] [0, 10, 10, 20]).2
      (by decide) (by with_unfolding_all rfl)
    simpa using h

/-- C2 counterexample: the claim's formula
`evaluated = home + (laneInterp - home) × presence` fails for a
multiplicative-semantics key whose home value is `0`.  With home opacity
`0`, spatial value equal to home (`0`), an event lane driving opacity from
`0` to `1`, driver `50` and presence `1`, the lane-interpolated value is
`1/2`, so the claim predicts `0 + (1/2 - 0) × 1 = 1/2`; the evaluator
composes `base * (evVal / (homeVal || 1)) = 0`. -/
theorem C2_zero_home_counterexample :
    let hp : List (String × EVal) :=
      [("worldX", .n 0), ("worldY", .n 0), ("opacity", .n 0)]
    let lane : BakedLane :=
      { values := [0, 100], outputRanges := [[.n 0, .n 1]],
        keys := ["opacity"], persistent := false }
    let ev := eventPhase [("scrollY", lane)] [("scrollY", 50)] [] hp 1
    compositeNumeric "opacity" (homeNum hp "opacity") ev.nums hp
      ≠ homeNum hp "opacity"
        + (evalNumericLaneKey 50 lane.values
            ((lane.outputRanges.getD 0 []).map evalToQ) (homeNum hp "opacity")
           - homeNum hp "opacity") * 1 := by
  with_unfolding_all decide

/-- C2 (amended): for a component whose spatial value of a key equals its
home value, a non-persistent event lane's effect on the key is weighted by
presence — evaluated value = home + (lane-interpolated value − home) ×
presence — for every additive-semantics key, and for the multiplicative
keys `opacity` and `_tr_scale` whenever the home value is non-zero (with
a zero home value the multiplicative composition yields `0` instead).
Concretely (see the witness): for an event lane with frames
(value 0 → opacity 1) and (value 100 → opacity 0), driver 50 and
presence 1 the evaluated opacity is `0.5`, and with presence 0 it is the
home value `1`. -/
theorem C2_presence_weighting (k name : String) (lane : BakedLane)
    (events : List (String × ℚ)) (hp : List (String × EVal))
    (colorKeys : List String) (presence val : ℚ) (range : List EVal)
    (hkeys : lane.keys = [k])
    (hout : lane.outputRanges = [range])
    (hpers : lane.persistent = false)
    (hdrv : getAssoc events name = some val)
    (hcol : colorKeys.contains k = false)
    (hmul : (k ≠ "opacity" ∧ k ≠ "_tr_scale") ∨ homeNum hp k ≠ 0) :
    compositeNumeric k (homeNum hp k)
      (eventPhase [(name, lane)] events colorKeys hp presence).nums hp
    = homeNum hp k
      + (evalNumericLaneKey val lane.values (range.map evalToQ) (homeNum hp k)
         - homeNum hp k) * presence := by
  have henum : ([k] : List String).enum = [(0, k)] := rfl
  unfold eventPhase eventLaneStep
  simp only [List.foldl_cons, List.foldl_nil, hdrv, hkeys, hout, hpers,
    henum, hcol, Bool.false_eq_true, if_false, List.getD, List.get?]
  simp only [getAssoc, Option.getD_some, setAssoc]
  unfold compositeNumeric
  simp only [getAssoc, eq_self_iff_true, if_true]
  rcases hmul with ⟨hk1, hk2⟩ | hz
  · rw [if_neg (by simp [hk1, hk2])]
    ring
  · by_cases hk : k = "opacity" ∨ k = "_tr_scale"
    · rw [if_pos hk, if_neg hz]
      field_simp
    · rw [if_neg hk]
      ring

/-- C2 witness: the two concrete scenarios of the claim — presence `1`
(camera at home) gives evaluated opacity `1/2`, presence `0` (camera
half a viewport away) gives the home opacity `1`. -/
theorem C2_presence_weighting_witness :
    compositeNumeric "opacity"
      (homeNum [("worldX", .n 0), ("worldY", .n 0), ("opacity", .n 1)] "opacity")
      (eventPhase
        [("scrollY", { values := [0, 100], outputRanges := [[.n 1, .n 0]],
                       keys := ["opacity"], persistent := false })]
        [("scrollY", 50)] []
        [("worldX", .n 0), ("worldY", .n 0), ("opacity", .n 1)]
        (computePresence 400 800 0 0 0 0 true)).nums
      [("worldX", .n 0), ("worldY", .n 0), ("opacity", .n 1)] = 1/2
    ∧ compositeNumeric "opacity"
      (homeNum [("worldX", .n 0), ("worldY", .n 0), ("opacity", .n 1)] "opacity")
      (eventPhase
        [("scrollY", { values := [0, 100], outputRanges := [[.n 1, .n 0]],
                       keys := ["opacity"], persistent := false })]
        [("scrollY", 50)] []
        [("worldX", .n 0), ("worldY", .n 0), ("opacity", .n 1)]
        (computePresence 400 800 0 0 200 0 true)).nums
      [("worldX", .n 0), ("worldY", .n 0), ("opacity", .n 1)] = 1 := by
  have hpres1 : computePresence 400 800 0 0 0 0 true = 1 := by
    norm_num [computePresence]
  have hpres0 : computePresence 400 800 0 0 200 0 true = 0 := by
    norm_num [computePresence]
  constructor
  · rw [hpres1, C2_presence_weighting "opacity" "scrollY" _
      [("scrollY", 50)] _ [] 1 50 [.n 1, .n 0] rfl rfl rfl rfl
      rfl (Or.inr (by with_unfolding_all decide))]
    with_unfolding_all rfl
  · rw [hpres0, C2_presence_weighting "opacity" "scrollY" _
      [("scrollY", 50)] _ [] 0 50 [.n 1, .n 0] rfl rfl rfl rfl
      rfl (Or.inr (by with_unfolding_all decide))]
    with_unfolding_all rfl

/-- Invariant of the `getSegmentInfo` scan: started in bounds at a
position whose coordinate is at most `val`, with `val` strictly below the
last coordinate, it stops at an `r` with `i ≤ r < length - 1`,
`input[r] ≤ val < input[r+1]`. -/
theorem segScanAux_spec (val : ℚ) (input : List ℚ) (fuel : ℕ) :
    ∀ i, input.length - 1 - i ≤ fuel →
    i < input.length - 1 →
    input.getD i 0 ≤ val →
    val < input.getD (input.length - 1) 0 →
    i ≤ segScanAux val input fuel i
    ∧ segScanAux val input fuel i < input.length - 1
    ∧ input.getD (segScanAux val input fuel i) 0 ≤ val
    ∧ val < input.getD (segScanAux val input fuel i + 1) 0 := by
  induction fuel with
  | zero => intro i hfuel hi _ _; omega
  | succ fuel ih =>
    intro i hfuel hi hival hlast
    have hunf : segScanAux val input (fuel + 1) i
        = if i < input.length - 1 ∧ input.getD (i + 1) 0 ≤ val then
            segScanAux val input fuel (i + 1)
          else i := rfl
    rw [hunf]
    by_cases hc : i < input.length - 1 ∧ input.getD (i + 1) 0 ≤ val
    · rw [if_pos hc]
      by_cases hi1 : i + 1 < input.length - 1
      · obtain ⟨ha, hb, hcc, hd⟩ := ih (i + 1) (by omega) hi1 hc.2 hlast
        exact ⟨by omega, hb, hcc, hd⟩
      · exfalso
        have he : i + 1 = input.length - 1 := by omega
        rw [he] at hc
        exact absurd hc.2 (not_le.mpr hlast)
    · rw [if_neg hc]
      have hv : ¬ input.getD (i + 1) 0 ≤ val := fun h => hc ⟨hi, h⟩
      exact ⟨le_refl _, hi, hival, not_le.mp hv⟩

/-- C10: for every non-empty, strictly increasing coordinate array and
every camera value, `getSegmentInfo` returns an index `i ≤ length - 1`,
and whenever it reports `constant = false` it also guarantees
`i + 1 ≤ length - 1` and a fractional progress `0 ≤ p < 1` — so the
evaluator's per-key interpolation reads of `values[i]` and `values[i+1]`
along an axis are always within bounds. -/
theorem C10_getSegmentInfo_bounds (val : ℚ) (input : List ℚ)
    (hne : input ≠ []) (hsorted : input.Pairwise (· < ·)) :
    (getSegmentInfo val input).i ≤ input.length - 1
    ∧ ((getSegmentInfo val input).constant = false →
        (getSegmentInfo val input).i + 1 ≤ input.length - 1
        ∧ 0 ≤ (getSegmentInfo val input).p
        ∧ (getSegmentInfo val input).p < 1) := by
  have hlen : input.length ≠ 0 := fun h => hne (List.eq_nil_of_length_eq_zero h)
  unfold getSegmentInfo
  rw [if_neg hlen]
  by_cases h1 : input.length = 1 ∨ val ≤ input.getD 0 0
  · rw [if_pos h1]
    exact ⟨Nat.zero_le _, fun h => absurd h (by simp)⟩
  · rw [if_neg h1]
    by_cases h2 : input.getD (input.length - 1) 0 ≤ val
    · rw [if_pos h2]
      exact ⟨le_refl _, fun h => absurd h (by simp)⟩
    · rw [if_neg h2]
      push_neg at h1 h2
      obtain ⟨ha, hb, hc, hd⟩ := segScanAux_spec val input input.length 0
        (by omega) (by omega) h1.2.le h2
      have e : segScanAux val input input.length 0 = segScan val input 0 := rfl
      rw [e] at ha hb hc hd
      dsimp only
      refine ⟨by omega, fun _ => ⟨by omega, ?_, ?_⟩⟩
      · by_cases hg : 1/1000 <
            input.getD (segScan val input 0 + 1) 0 - input.getD (segScan val input 0) 0
        · rw [if_pos hg]
          exact div_nonneg (by linarith) (by linarith)
        · rw [if_neg hg]
      · by_cases hg : 1/1000 <
            input.getD (segScan val input 0 + 1) 0 - input.getD (segScan val input 0) 0
        · rw [if_pos hg]
          rw [div_lt_one (by linarith)]
          linarith
        · rw [if_neg hg]
          exact zero_lt_one

/-- C10 witness. -/
theorem C10_getSegmentInfo_bounds_witness :
    (getSegmentInfo 50 [0, 100]).i ≤ ([0, 100] : List ℚ).length - 1
    ∧ ((getSegmentInfo 50 [0, 100]).constant = false →
        (getSegmentInfo 50 [0, 100]).i + 1 ≤ ([0, 100] : List ℚ).length - 1
        ∧ 0 ≤ (getSegmentInfo 50 [0, 100]).p
        ∧ (getSegmentInfo 50 [0, 100]).p < 1) :=
  C10_getSegmentInfo_bounds 50 [0, 100] (by simp)
    (by norm_num [List.pairwise_cons])

/-- A camera strictly farther than `1.5 × size` from the home coordinate
and from every keyframe coordinate fails the per-axis visibility check. -/
theorem visibleAxis_far (home : ℚ) (uniq : List ℚ) (size : ℚ) (q : ℚ)
    (h1 : size * (3/2) < |q - home|)
    (h2 : ∀ u ∈ uniq, size * (3/2) < |q - u|) :
    visibleAxis home uniq size (.fin q) = false := by
  unfold visibleAxis
  simp only [JNum.sub, JNum.jabs, JNum.jle, JNum.jlt, Bool.or_eq_false_iff,
    decide_eq_false_iff_not, not_le, List.any_eq_false]
  exact ⟨h1, fun u hu => by simpa using not_lt.mpr (le_of_lt (h2 u hu))⟩

/-- A non-finite camera component (`NaN` or `±Infinity`) fails the
per-axis visibility check: every JavaScript comparison against `NaN` is
false, and `|±Infinity - c|` is `Infinity`, which is neither `≤` nor `<`
any finite threshold. -/
theorem visibleAxis_nonFinite (home : ℚ) (uniq : List ℚ) (size : ℚ)
    (c : JNum) (hc : c.isFinite = false) :
    visibleAxis home uniq size c = false := by
  cases c with
  | fin q => simp [JNum.isFinite] at hc
  | nan =>
    unfold visibleAxis
    simp [JNum.sub, JNum.jabs, JNum.jle, JNum.jlt, List.any_eq_false]
  | inf =>
    unfold visibleAxis
    simp [JNum.sub, JNum.jabs, JNum.jle, JNum.jlt, List.any_eq_false]
  | ninf =>
    unfold visibleAxis
    simp [JNum.sub, JNum.jabs, JNum.jle, JNum.jlt, List.any_eq_false]

/-- C4: for every baked component and camera position, if on the x-axis
the camera's distance from the component's home x-position and from every
keyframe-declared x-position exceeds 1.5× viewport width (or the analogous
condition holds on the y-axis with the viewport height), the frame
evaluator short-circuits and returns the style `{opacity: 0}`. -/
theorem C4_visibility_cull (baked : BakedResult) (dims : Dims)
    (qx qy : ℚ) (eventVals : List (String × ℚ)) (isSingleRow : Bool)
    (h : (dims.width * (3/2) < |qx - baked.homeX|
          ∧ ∀ u ∈ baked.uniqueX, dims.width * (3/2) < |qx - u|)
        ∨ (dims.height * (3/2) < |qy - baked.homeY|
          ∧ ∀ u ∈ baked.uniqueY, dims.height * (3/2) < |qy - u|)) :
    evaluate baked dims (.fin qx) (.fin qy) eventVals isSingleRow
      = opacityZeroStyle := by
  unfold evaluate
  rcases h with ⟨h1, h2⟩ | ⟨h1, h2⟩
  · rw [visibleAxis_far baked.homeX baked.uniqueX dims.width qx h1 h2]
    simp
  · rw [visibleAxis_far baked.homeY baked.uniqueY dims.height qy h1 h2]
    simp

/-- C4 witness: the single-frame component anchored at the origin of a
400×800 viewport is fully transparent with the camera at `x = 700`. -/
theorem C4_visibility_cull_witness :
    evaluate
      { homeX := 0, homeY := 0, localX := 0, localY := 0,
        bakedH := [{ fixed := 0, values := [[0], [0], [1]],
                     constFlags := [true, true, true] }],
        bakedV := [{ fixed := 0, values := [[0], [0], [1]],
                     constFlags := [true, true, true] }],
        bakedCH := [], bakedCV := [],
        eventLanes := [], uniqueX := [0], uniqueY := [0],
        numericKeys := ["worldX", "worldY", "opacity"], colorKeys := [],
        baseProps := { rest := [], transform := [] },
        homeProps := [("worldX", .n 0), ("worldY", .n 0), ("opacity", .n 1)] }
      { width := 400, height := 800, offsetX := 0, offsetY := 0 }
      (.fin 700) (.fin 0) [] true = opacityZeroStyle := by
  apply C4_visibility_cull
  refine Or.inl ⟨by norm_num, ?_⟩
  intro u hu
  simp only [List.mem_singleton] at hu
  rw [hu]
  norm_num

/-- C8: for every baked component, if the camera x or y value is `NaN` or
`±Infinity`, the evaluator returns exactly the `{opacity: 0}` style, and
hence its output style set contains no `NaN` and no `Infinity` numeric
field.  (The non-finite camera never reaches the arithmetic of the main
body: it already fails the virtualization comparisons, whose JavaScript
`NaN`/`Infinity` semantics the embedding mirrors.) -/
theorem C8_nonfinite_camera_safe (baked : BakedResult) (dims : Dims)
    (cameraX cameraY : JNum) (eventVals : List (String × ℚ))
    (isSingleRow : Bool)
    (h : cameraX.isFinite = false ∨ cameraY.isFinite = false) :
    evaluate baked dims cameraX cameraY eventVals isSingleRow
      = opacityZeroStyle
    ∧ styleNumsFinite
        (evaluate baked dims cameraX cameraY eventVals isSingleRow) = true := by
  have hz : evaluate baked dims cameraX cameraY eventVals isSingleRow
      = opacityZeroStyle := by
    unfold evaluate
    rcases h with hx | hy
    · rw [visibleAxis_nonFinite baked.homeX baked.uniqueX dims.width cameraX hx]
      simp
    · rw [visibleAxis_nonFinite baked.homeY baked.uniqueY dims.height cameraY hy]
      simp
  exact ⟨hz, by rw [hz]; rfl⟩

/-- C8 witness: a `NaN` camera x on the same baked component. -/
theorem C8_nonfinite_camera_safe_witness :
    evaluate
      { homeX := 0, homeY := 0, localX := 0, localY := 0,
        bakedH := [{ fixed := 0, values := [[0], [0], [1]],
                     constFlags := [true, true, true] }],
        bakedV := [{ fixed := 0, values := [[0], [0], [1]],
                     constFlags := [true, true, true] }],
        bakedCH := [], bakedCV := [],
        eventLanes := [], uniqueX := [0], uniqueY := [0],
        numericKeys := ["worldX", "worldY", "opacity"], colorKeys := [],
        baseProps := { rest := [], transform := [] },
        homeProps := [("worldX", .n 0), ("worldY", .n 0), ("opacity", .n 1)] }
      { width := 400, height := 800, offsetX := 0, offsetY := 0 }
      .nan (.fin 0) [] true = opacityZeroStyle
    ∧ styleNumsFinite
        (evaluate
          { homeX := 0, homeY := 0, localX := 0, localY := 0,
            bakedH := [{ fixed := 0, values := [[0], [0], [1]],
                         constFlags := [true, true, true] }],
            bakedV := [{ fixed := 0, values := [[0], [0], [1]],
                         constFlags := [true, true, true] }],
            bakedCH := [], bakedCV := [],
            eventLanes := [], uniqueX := [0], uniqueY := [0],
            numericKeys := ["worldX", "worldY", "opacity"], colorKeys := [],
            baseProps := { rest := [], transform := [] },
            homeProps := [("worldX", .n 0), ("worldY", .n 0),
                          ("opacity", .n 1)] }
          { width := 400, height := 800, offsetX := 0, offsetY := 0 }
          .nan (.fin 0) [] true) = true :=
  C8_nonfinite_camera_safe _ _ .nan (.fin 0) [] true (Or.inl rfl)

/-! ### Association-list and lane-sort lemmas (shared helpers) -/

/-- `setAssoc` stores the value at its key. -/
theorem getAssoc_setAssoc_self {β : Type} (m : List (String × β)) (k : String)
    (v : β) : getAssoc (setAssoc m k v) k = some v := by
  induction m with
  | nil => simp [setAssoc, getAssoc]
  | cons hd t ih =>
    obtain ⟨k', v'⟩ := hd
    by_cases h : k' = k
    · simp [setAssoc, getAssoc, h]
    · simp [setAssoc, getAssoc, h, ih]

/-- `setAssoc` leaves other keys unchanged. -/
theorem getAssoc_setAssoc_ne {β : Type} (m : List (String × β)) (k k' : String)
    (v : β) (h : k' ≠ k) : getAssoc (setAssoc m k' v) k = getAssoc m k := by
  induction m with
  | nil => simp [setAssoc, getAssoc, h]
  | cons hd t ih =>
    obtain ⟨k'', v''⟩ := hd
    by_cases h2 : k'' = k'
    · simp [setAssoc, getAssoc, h2, h, Ne.symm h]
    · by_cases h3 : k'' = k
      · simp [setAssoc, getAssoc, h2, h3, Ne.symm h]
      · simp [setAssoc, getAssoc, h2, h3, ih]

/-- `appendLane` appends at its lane. -/
theorem getAssoc_appendLane_self (lanes : List (String × List BakedFrame))
    (n : String) (bf : BakedFrame) :
    getAssoc (appendLane lanes n bf) n
      = some ((getAssoc lanes n).getD [] ++ [bf]) := by
  induction lanes with
  | nil => simp [appendLane, getAssoc]
  | cons hd t ih =>
    obtain ⟨n', fs'⟩ := hd
    by_cases h : n' = n
    · simp [appendLane, getAssoc, h]
    · simp [appendLane, getAssoc, h, ih]

/-- `appendLane` leaves other lanes unchanged. -/
theorem getAssoc_appendLane_ne (lanes : List (String × List BakedFrame))
    (n n' : String) (bf : BakedFrame) (h : n' ≠ n) :
    getAssoc (appendLane lanes n' bf) n = getAssoc lanes n := by
  induction lanes with
  | nil => simp [appendLane, getAssoc, h]
  | cons hd t ih =>
    obtain ⟨n'', fs''⟩ := hd
    by_cases h2 : n'' = n'
    · simp [appendLane, getAssoc, h2, h, Ne.symm h]
    · by_cases h3 : n'' = n
      · simp [appendLane, getAssoc, h2, h3, Ne.symm h]
      · simp [appendLane, getAssoc, h2, h3, ih]

/-- Lookup through a value-mapping of an association list. -/
theorem getAssoc_map {β γ : Type} (f : β → γ) (l : List (String × β))
    (k : String) :
    getAssoc (l.map (fun nl => (nl.1, f nl.2))) k = (getAssoc l k).map f := by
  induction l with
  | nil => simp [getAssoc]
  | cons hd t ih =>
    obtain ⟨k', v'⟩ := hd
    by_cases h : k' = k
    · simp [getAssoc, h]
    · simp [getAssoc, h, ih]

/-- `laneInsert` permutes the insertion. -/
theorem laneInsert_perm (a : BakedFrame) (l : List BakedFrame) :
    (laneInsert a l).Perm (a :: l) := by
  induction l with
  | nil => simp [laneInsert]
  | cons b t ih =>
    unfold laneInsert
    by_cases h : laneValueOf a < laneValueOf b
    · rw [if_pos h]
    · rw [if_neg h]
      exact (ih.cons b).trans (List.Perm.swap a b t)

/-- `sortLane` is a permutation. -/
theorem sortLane_perm (l : List BakedFrame) : (sortLane l).Perm l := by
  induction l with
  | nil => simp [sortLane]
  | cons a t ih =>
    exact (laneInsert_perm a (sortLane t)).trans (ih.cons a)

/-- `laneInsert` preserves sortedness by trigger value. -/
theorem laneInsert_pairwise (a : BakedFrame) (l : List BakedFrame)
    (h : l.Pairwise (fun x y => laneValueOf x ≤ laneValueOf y)) :
    (laneInsert a l).Pairwise (fun x y => laneValueOf x ≤ laneValueOf y) := by
  induction l with
  | nil => simp [laneInsert]
  | cons b t ih =>
    rw [List.pairwise_cons] at h
    obtain ⟨hb, ht⟩ := h
    unfold laneInsert
    by_cases hab : laneValueOf a < laneValueOf b
    · rw [if_pos hab]
      refine List.Pairwise.cons ?_ (List.Pairwise.cons hb ht)
      intro y hy
      rcases List.mem_cons.mp hy with rfl | hyt
      · exact le_of_lt hab
      · exact le_trans (le_of_lt hab) (hb y hyt)
    · rw [if_neg hab]
      refine List.Pairwise.cons ?_ (ih ht)
      intro y hy
      have hy' := (laneInsert_perm a t).mem_iff.mp hy
      rcases List.mem_cons.mp hy' with rfl | hyt
      · exact le_of_not_lt hab
      · exact hb y hyt

/-- Every `sortLane` output is sorted ascending by trigger value. -/
theorem sortLane_pairwise (l : List BakedFrame) :
    (sortLane l).Pairwise (fun x y => laneValueOf x ≤ laneValueOf y) := by
  induction l with
  | nil => simp [sortLane]
  | cons a t ih => exact laneInsert_pairwise a (sortLane t) ih

/-! ### `register` fold lemmas -/

/-- Keys not in the keyframe list are untouched by the fold. -/
theorem registerFold_bfs_untouched (cfg : Config) (dims : Dims) (rh : ℤ)
    (ho : Offset) (kfs : List (String × Frame)) :
    ∀ acc k, k ∉ kfs.map Prod.fst →
    getAssoc (kfs.foldl (registerStep cfg dims rh ho) acc).1 k
      = getAssoc acc.1 k := by
  induction kfs with
  | nil => intro acc k _; rfl
  | cons x t ih =>
    intro acc k hk
    simp only [List.map_cons, List.mem_cons, not_or] at hk
    rw [List.foldl_cons, ih _ k (by simpa using hk.2)]
    unfold registerStep
    by_cases hc : x.2.page ≠ none ∨ x.2.event = none
    · simp only [if_pos hc]
      exact getAssoc_setAssoc_ne acc.1 k x.1 _ (fun h => hk.1 h.symm)
    · simp only [if_neg hc]

/-- Every spatial keyframe ends up in `bakedFrames` under its key with the
resolved world delta (given unique keyframe keys, as produced by
`Object.entries` or the array indexing). -/
theorem registerFold_spatial (cfg : Config) (dims : Dims) (rh : ℤ)
    (ho : Offset) (kfs : List (String × Frame)) :
    ∀ acc, (kfs.map Prod.fst).Nodup →
    ∀ kf ∈ kfs, (kf.2.page ≠ none ∨ kf.2.event = none) →
    getAssoc (kfs.foldl (registerStep cfg dims rh ho) acc).1 kf.1
      = some (spatialBakeOf cfg dims rh ho kf.2) := by
  induction kfs with
  | nil => intro acc _ kf hkf; exact absurd hkf (List.not_mem_nil kf)
  | cons x t ih =>
    intro acc hnodup kf hkf hcond
    simp only [List.map_cons, List.nodup_cons] at hnodup
    rcases List.mem_cons.mp hkf with rfl | hkft
    · rw [List.foldl_cons,
        registerFold_bfs_untouched cfg dims rh ho t _ kf.1 hnodup.1]
      unfold registerStep
      rw [if_pos hcond]
      exact getAssoc_setAssoc_self acc.1 kf.1 _
    · rw [List.foldl_cons]
      exact ih _ hnodup.2 kf hkft hcond

/-- Lane membership is preserved by the remainder of the fold. -/
theorem registerFold_lane_mono (cfg : Config) (dims : Dims) (rh : ℤ)
    (ho : Offset) (kfs : List (String × Frame)) :
    ∀ acc n bf, (∃ fs, getAssoc acc.2 n = some fs ∧ bf ∈ fs) →
    ∃ fs, getAssoc (kfs.foldl (registerStep cfg dims rh ho) acc).2 n = some fs
      ∧ bf ∈ fs := by
  induction kfs with
  | nil => intro acc n bf h; exact h
  | cons x t ih =>
    intro acc n bf h
    obtain ⟨fs, hfs, hbf⟩ := h
    rw [List.foldl_cons]
    refine ih _ n bf ?_
    unfold registerStep
    rcases hev : x.2.event with _ | ev
    · simp only [hev]
      exact ⟨fs, hfs, hbf⟩
    · simp only [hev]
      by_cases hne : ev ≠ ""
      · rw [if_pos hne]
        by_cases heq : ev = n
        · subst heq
          refine ⟨(getAssoc acc.2 ev).getD [] ++ [bakeEvent x.2],
            getAssoc_appendLane_self acc.2 ev (bakeEvent x.2), ?_⟩
          rw [hfs]
          exact List.mem_append_left _ hbf
        · rw [getAssoc_appendLane_ne acc.2 n ev (bakeEvent x.2) heq]
          exact ⟨fs, hfs, hbf⟩
      · rw [if_neg hne]
        exact ⟨fs, hfs, hbf⟩

/-- Every keyframe declaring a non-empty event name ends up (with its
trigger value defaulted to `0`) in that event's lane. -/
theorem registerFold_lane_mem (cfg : Config) (dims : Dims) (rh : ℤ)
    (ho : Offset) (kfs : List (String × Frame)) :
    ∀ acc, ∀ kf ∈ kfs, ∀ n, kf.2.event = some n → n ≠ "" →
    ∃ fs, getAssoc (kfs.foldl (registerStep cfg dims rh ho) acc).2 n = some fs
      ∧ bakeEvent kf.2 ∈ fs := by
  induction kfs with
  | nil => intro acc kf hkf; exact absurd hkf (List.not_mem_nil kf)
  | cons x t ih =>
    intro acc kf hkf n hev hne
    rcases List.mem_cons.mp hkf with rfl | hkft
    · rw [List.foldl_cons]
      refine registerFold_lane_mono cfg dims rh ho t _ n (bakeEvent kf.2) ?_
      unfold registerStep
      simp only [hev]
      rw [if_pos hne]
      refine ⟨(getAssoc acc.2 n).getD [] ++ [bakeEvent kf.2],
        getAssoc_appendLane_self acc.2 n (bakeEvent kf.2), ?_⟩
      exact List.mem_append_right _ (List.mem_singleton_self _)
    · rw [List.foldl_cons]
      exact ih _ kf hkft n hev hne

/-- C5 counterexample: the claim says *every* frame that declares `event`
is appended to that event's lane.  A frame whose event name is the empty
string declares an event, but `if (frame.event)` is false for `""`
(JavaScript truthiness), so the frame is appended nowhere — and, having a
defined `event` and no `page`, it is not baked spatially either; it is
dropped entirely. -/
theorem C5_empty_event_counterexample :
    (register
      { layout := [[1, 1, 1]], defaultPage := 0,
        pageMap := [], rowOverlaps := [], colOverlaps := [0, 0] }
      (.num 0) { width := 400, height := 800, offsetX := 0, offsetY := 0 }
      [("k", { page := none, event := some "", value := some 5,
               opacity := none, scale := none, rotate := none,
               persistent := false, style := [] })] none).eventLanes = []
    ∧ (register
      { layout := [[1, 1, 1]], defaultPage := 0,
        pageMap := [], rowOverlaps := [], colOverlaps := [0, 0] }
      (.num 0) { width := 400, height := 800, offsetX := 0, offsetY := 0 }
      [("k", { page := none, event := some "", value := some 5,
               opacity := none, scale := none, rotate := none,
               persistent := false, style := [] })] none).bakedFrames = [] := by
  exact ⟨by with_unfolding_all rfl, by with_unfolding_all rfl⟩

/-- C5 (amended): for every keyframe set passed to `register` (with the
unique keys `Object.entries`/array indexing produces): a frame that
declares `page`, or that declares no `event`, is baked as a spatial frame
whose `worldX`/`worldY` equal the resolved target page's world offset
minus the home page's world offset; every frame that declares a
*non-empty* `event` name is appended to that event's lane with its value
defaulting to `0` (independently of also being baked spatially; a frame
whose event name is the empty string is dropped); and after registration
every event lane is sorted ascending by value. -/
theorem C5_register_classification (cfg : Config) (pageId : PageRef)
    (dims : Dims) (keyframes : List (String × Frame))
    (localLayout : Option Offset)
    (hnodup : (keyframes.map Prod.fst).Nodup) :
    (∀ kf ∈ keyframes, (kf.2.page ≠ none ∨ kf.2.event = none) →
      getAssoc (register cfg pageId dims keyframes localLayout).bakedFrames kf.1
        = some (spatialBakeOf cfg dims (resolvePageId cfg.pageMap pageId)
            (register cfg pageId dims keyframes localLayout).homeOffset kf.2))
    ∧ (∀ kf ∈ keyframes, ∀ n, kf.2.event = some n → n ≠ "" →
        ∃ fs,
          getAssoc (register cfg pageId dims keyframes localLayout).eventLanes n
            = some fs ∧ bakeEvent kf.2 ∈ fs)
    ∧ (∀ nl ∈ (register cfg pageId dims keyframes localLayout).eventLanes,
        nl.2.Pairwise (fun a b => laneValueOf a ≤ laneValueOf b)) := by
  refine ⟨?_, ?_, ?_⟩
  · intro kf hkf hcond
    exact registerFold_spatial cfg dims _ _ keyframes ([], []) hnodup kf hkf hcond
  · intro kf hkf n hev hne
    obtain ⟨fs, hfs, hbf⟩ :=
      registerFold_lane_mem cfg dims (resolvePageId cfg.pageMap pageId)
        (getPageOffset (resolvePageId cfg.pageMap pageId) cfg.layout dims
          cfg.defaultPage cfg.rowOverlaps cfg.colOverlaps)
        keyframes ([], []) kf hkf n hev hne
    refine ⟨sortLane fs, ?_, ?_⟩
    · have he : (register cfg pageId dims keyframes localLayout).eventLanes
          = (keyframes.foldl
              (registerStep cfg dims (resolvePageId cfg.pageMap pageId)
                (getPageOffset (resolvePageId cfg.pageMap pageId) cfg.layout
                  dims cfg.defaultPage cfg.rowOverlaps cfg.colOverlaps))
              ([], [])).2.map (fun nl => (nl.1, sortLane nl.2)) := rfl
      rw [he, getAssoc_map, hfs]
      rfl
    · exact (sortLane_perm fs).mem_iff.mpr hbf
  · intro nl hnl
    obtain ⟨nl', _, rfl⟩ := List.mem_map.mp hnl
    exact sortLane_pairwise nl'.2

/-- C5 witness: a two-frame registration on a 1×3 grid — the spatial frame
`move` (targeting the page right of home) is baked to the world delta, and
the event frame `ev` lands on lane `sc`. -/
theorem C5_register_classification_witness :
    getAssoc (register
        { layout := [[1, 1, 1]], defaultPage := 0, pageMap := [],
          rowOverlaps := [], colOverlaps := [0, 0] }
        (.num 1) { width := 400, height := 800, offsetX := 0, offsetY := 0 }
        [("move", { page := some (.num 2), event := none, value := none,
                    opacity := none, scale := none, rotate := none,
                    persistent := false, style := [] }),
         ("ev", { page := none, event := some "sc", value := none,
                  opacity := none, scale := none, rotate := none,
                  persistent := false, style := [] })] none).bakedFrames "move"
      = some (spatialBakeOf
          { layout := [[1, 1, 1]], defaultPage := 0, pageMap := [],
            rowOverlaps := [], colOverlaps := [0, 0] }
          { width := 400, height := 800, offsetX := 0, offsetY := 0 } 1
          (register
            { layout := [[1, 1, 1]], defaultPage := 0, pageMap := [],
              rowOverlaps := [], colOverlaps := [0, 0] }
            (.num 1)
            { width := 400, height := 800, offsetX := 0, offsetY := 0 }
            [("move", { page := some (.num 2), event := none, value := none,
                        opacity := none, scale := none, rotate := none,
                        persistent := false, style := [] }),
             ("ev", { page := none, event := some "sc", value := none,
                      opacity := none, scale := none, rotate := none,
                      persistent := false, style := [] })] none).homeOffset
          { page := some (.num 2), event := none, value := none,
            opacity := none, scale := none, rotate := none,
            persistent := false, style := [] })
    ∧ ∃ fs, getAssoc (register
        { layout := [[1, 1, 1]], defaultPage := 0, pageMap := [],
          rowOverlaps := [], colOverlaps := [0, 0] }
        (.num 1) { width := 400, height := 800, offsetX := 0, offsetY := 0 }
        [("move", { page := some (.num 2), event := none, value := none,
                    opacity := none, scale := none, rotate := none,
                    persistent := false, style := [] }),
         ("ev", { page := none, event := some "sc", value := none,
                  opacity := none, scale := none, rotate := none,
                  persistent := false, style := [] })] none).eventLanes "sc"
      = some fs
      ∧ bakeEvent { page := none, event := some "sc", value := none,
                    opacity := none, scale := none, rotate := none,
                    persistent := false, style := [] } ∈ fs := by
  have h := C5_register_classification
    { layout := [[1, 1, 1]], defaultPage := 0, pageMap := [],
      rowOverlaps := [], colOverlaps := [0, 0] }
    (.num 1) { width := 400, height := 800, offsetX := 0, offsetY := 0 }
    [("move", { page := some (.num 2), event := none, value := none,
                opacity := none, scale := none, rotate := none,
                persistent := false, style := [] }),
     ("ev", { page := none, event := some "sc", value := none,
              opacity := none, scale := none, rotate := none,
              persistent := false, style := [] })] none (by decide)
  exact ⟨h.1 ("move",
      { page := some (.num 2), event := none, value := none,
        opacity := none, scale := none, rotate := none,
        persistent := false, style := [] }) (.head _) (Or.inr rfl),
    h.2.1 ("ev",
      { page := none, event := some "sc", value := none,
        opacity := none, scale := none, rotate := none,
        persistent := false, style := [] }) (.tail _ (.head _)) "sc" rfl
      (by decide)⟩

/-- The `onFinalize` handler never issues a page change: its result's
`fired` list is `[]` on every branch. -/
theorem onFinalize_fired_nil (sp : List SnapPoint) (pm : List (String × ℕ))
    (ltid : Option PageRef) (ge : Option Bool) (st : GestureState) (sb : Bool) :
    (onFinalize sp pm ltid ge st sb).fired = [] := by
  unfold onFinalize
  split
  · rfl
  split
  · rfl
  split
  · rfl
  dsimp only
  split
  all_goals first | rfl | (split <;> rfl)

/-- C6: a pan on a 400-wide viewport released with `translationX = -250`
(past the 8 percent distance threshold of 32, with velocity below the
200 threshold), on the horizontal axis (`activeAxis = 1`), whose start
position is within the anchor-proximity threshold of a snap point
(`dist² < (0.3 · 400)² = 14400`), resolves to the snap point one column to
the right of the anchor (`row = anchor.row`, `col = anchor.col + 1`) when
that neighbour exists with a valid x; `onPageChange` fires with exactly
that page's id, exactly once, if and only if it differs from the anchor's
id, and the finalize pass never fires a page change. -/
theorem C6_rightward_snap (bounds : WorldBounds) (screenHeight : ℚ)
    (isSingleRow : Bool) (snapPoints : List SnapPoint) (st : GestureState)
    (e : PanEvent) (nb : SnapPoint) (d : ℚ)
    (hne : snapPoints.length ≠ 0)
    (haxis : st.activeAxis = 1)
    (htx : e.translationX = -250)
    (hvl : e.velocityX ≤ 200)
    (hds : (anchorScan snapPoints st.startX st.startY).distSq = some d)
    (hd : d < 14400)
    (hnb : snapPoints.find? (fun p => decide
        ((p.row : ℤ) = ((anchorScan snapPoints st.startX st.startY).row : ℤ)
         ∧ (p.col : ℤ) = ((anchorScan snapPoints st.startX st.startY).col : ℤ) + 1))
      = some nb)
    (hx : nb.x ≠ -1) :
    ∃ r, onEnd bounds 400 screenHeight isSingleRow snapPoints (some true) st e
        = some r
      ∧ r.targetId = (nb.id : ℤ) ∧ r.targetX = nb.x ∧ r.targetY = nb.y
      ∧ r.fired = (if (nb.id : ℤ) ≠ (anchorScan snapPoints st.startX st.startY).id
          then [(nb.id : ℤ)] else [])
      ∧ ∀ pm ltid ge st' sb,
          (onFinalize snapPoints pm ltid ge st' sb).fired = [] := by
  unfold onEnd
  rw [if_neg (by decide), if_neg hne]
  simp only [hds, hd, haxis]
  have hT : ((400:ℚ) * (3/10)) ^ 2 = 14400 := by norm_num
  have h0 : decide ((0:ℚ) ≤ 400) = true := by norm_num
  have h1 : decide (d < (14400:ℚ)) = true := by simp [hd]
  have hir : e.velocityX < -200 ∨ e.translationX < -((400:ℚ) * (8 / 100)) :=
    Or.inr (by rw [htx]; norm_num)
  simp only [hT, h0, h1, Bool.and_self, eq_self_iff_true, true_and]
  rw [if_pos (Or.inl hir)]
  simp only [if_neg (show ¬((1:ℕ) = 2 ∧ ¬isSingleRow = true) by simp), if_true,
    if_pos hir]
  rw [hnb]
  have hidm1 : ¬((nb.id : ℤ) = -1) := by omega
  dsimp only
  rw [if_neg hx]
  dsimp only
  rw [if_neg hidm1]
  refine ⟨_, rfl, rfl, rfl, rfl, ?_, ?_⟩
  · by_cases hcase :
      (nb.id : ℤ) = (anchorScan snapPoints st.startX st.startY).id
    · simp [hcase]
    · simp [hcase, hidm1]
  · exact fun pm ltid ge st' sb => onFinalize_fired_nil snapPoints pm ltid ge st' sb

/-- Witness for C6 on a 1x3 layout with 400-wide pages: the anchor is page
0 at the start position, the resolved target is page 1 at x = 400, and the
page-change list is exactly `[1]`. -/
theorem C6_rightward_snap_witness :
    (mkSnapPoints ⟨[[1, 1, 1]], 0, [], [], []⟩ ⟨400, 800, 0, 0⟩).length ≠ 0
    ∧ (anchorScan (mkSnapPoints ⟨[[1, 1, 1]], 0, [], [], []⟩ ⟨400, 800, 0, 0⟩)
        0 0).distSq = some 0
    ∧ (0:ℚ) < 14400
    ∧ ∃ r, onEnd ⟨-800, 0, 0, 0⟩ 400 800 true
          (mkSnapPoints ⟨[[1, 1, 1]], 0, [], [], []⟩ ⟨400, 800, 0, 0⟩)
          (some true) ⟨0, 0, 0, 0, 1, false, false⟩ ⟨-250, 0, 0, 0⟩ = some r
        ∧ r.targetId = 1 ∧ r.targetX = 400 ∧ r.fired = [1] := by
  refine ⟨by with_unfolding_all decide, by with_unfolding_all rfl, by norm_num,
    ?_⟩
  obtain ⟨r, h1, h2, h3, h4, h5, h6⟩ :=
    C6_rightward_snap ⟨-800, 0, 0, 0⟩ 800 true
      (mkSnapPoints ⟨[[1, 1, 1]], 0, [], [], []⟩ ⟨400, 800, 0, 0⟩)
      ⟨0, 0, 0, 0, 1, false, false⟩ ⟨-250, 0, 0, 0⟩ ⟨1, 400, 0, 0, 1⟩ 0
      (by with_unfolding_all decide) rfl rfl (by norm_num)
      (by with_unfolding_all rfl) (by norm_num)
      (by with_unfolding_all rfl) (by norm_num)
  exact ⟨r, h1, by rw [h2]; rfl, by rw [h3],
    by rw [h5]; with_unfolding_all decide⟩

/-- Decimal digits are not whitespace. -/
theorem isWsChar_false_of_isDigit (c : Char) (h : c.isDigit = true) :
    isWsChar c = false := by
  by_contra hne
  rw [Bool.not_eq_false] at hne
  simp only [isWsChar, decide_eq_true_eq] at hne
  rcases hne with h1 | h1 | h1 | h1 | h1 | h1 <;> subst h1 <;>
    exact absurd h (by decide)

/-- A digit block followed by a non-digit is taken whole. -/
theorem takeDigits_append (l r : List Char) (x : Char)
    (hl : ∀ c ∈ l, c.isDigit = true) (hx : x.isDigit = false) :
    takeDigits (l ++ x :: r) = (l, x :: r) := by
  induction l with
  | nil => simp [takeDigits, hx]
  | cons c t ih =>
    have hc : c.isDigit = true := hl c (by simp)
    have ht : ∀ c ∈ t, c.isDigit = true := fun c hm => hl c (by simp [hm])
    simp [takeDigits, hc, ih ht]

/-- A block from the class of digits and dots followed by a character
outside the class is taken whole. -/
theorem takeFloatChars_append (l r : List Char) (x : Char)
    (hl : ∀ c ∈ l, c.isDigit = true ∨ c = '.')
    (hx : ¬(x.isDigit = true ∨ x = '.')) :
    takeFloatChars (l ++ x :: r) = (l, x :: r) := by
  induction l with
  | nil => simp [takeFloatChars, hx]
  | cons c t ih =>
    have hc : c.isDigit = true ∨ c = '.' := hl c (by simp)
    have ht : ∀ c ∈ t, c.isDigit = true ∨ c = '.' :=
      fun c hm => hl c (by simp [hm])
    simp [takeFloatChars, hc, ih ht]

/-- Dropping whitespace is the identity on a non-whitespace head. -/
theorem dropWs_cons (x : Char) (t : List Char) (h : isWsChar x = false) :
    dropWs (x :: t) = x :: t := by
  simp [dropWs, List.dropWhile_cons, h]

/-- Scanning an appended list continues the scan of the second part from
the end state of the first. -/
theorem lastCommaAux_append (l1 l2 : List Char) :
    ∀ (i : ℕ) (best : Option ℕ),
      lastCommaAux (l1 ++ l2) i best
        = lastCommaAux l2 (i + l1.length) (lastCommaAux l1 i best) := by
  induction l1 with
  | nil => intro i best; simp [lastCommaAux]
  | cons c t ih =>
    intro i best
    simp only [List.cons_append, lastCommaAux, List.length_cons]
    have e : i + (t.length + 1) = i + 1 + t.length := by omega
    rw [e]
    exact ih (i + 1) _

/-- A comma-free list leaves the best index unchanged. -/
theorem lastCommaAux_no (l : List Char) (h : ∀ c ∈ l, c ≠ ',') :
    ∀ (i : ℕ) (best : Option ℕ), lastCommaAux l i best = best := by
  induction l with
  | nil => intro i best; rfl
  | cons c t ih =>
    intro i best
    have hc : c ≠ ',' := h c (by simp)
    have ht : ∀ c ∈ t, c ≠ ',' := fun c hm => h c (by simp [hm])
    simp [lastCommaAux, hc, ih ht]

/-- The last comma of a list whose suffix after some comma is comma-free
is that comma. -/
theorem lastCommaIdx_append (pre suf : List Char) (h : ∀ c ∈ suf, c ≠ ',') :
    lastCommaIdx (pre ++ ',' :: suf) = some pre.length := by
  unfold lastCommaIdx
  rw [lastCommaAux_append]
  show lastCommaAux (',' :: suf) (0 + pre.length) _ = _
  simp only [lastCommaAux, if_pos rfl]
  rw [lastCommaAux_no suf h]
  simp

/-- JavaScript rounding is the identity on integers. -/
theorem jround_intCast (z : ℤ) : jround (z : ℚ) = z := by
  unfold jround
  show ⌊(z : ℚ) + 1/2⌋ = z
  rw [Int.floor_int_add]
  norm_num

/-- Character data of a constructed color string. -/
theorem rgba_data (rs gs bs as : List Char) :
    ("rgba(" ++ charsStr rs ++ "," ++ charsStr gs ++ "," ++ charsStr bs
      ++ "," ++ charsStr as ++ ")" : String).data
    = 'r' :: 'g' :: 'b' :: 'a' :: '('
        :: (rs ++ ',' :: (gs ++ ',' :: (bs ++ ',' :: (as ++ [')'])))) := by
  simp [charsStr, String.data_append, List.append_assoc]

/-- The rgba pattern matched at the head of a constructed color string
captures exactly its four components. -/
theorem rgbAt_constructed (rs gs bs as : List Char)
    (hrs : rs ≠ []) (hrd : ∀ c ∈ rs, c.isDigit = true)
    (hgs : gs ≠ []) (hgd : ∀ c ∈ gs, c.isDigit = true)
    (hbs : bs ≠ []) (hbd : ∀ c ∈ bs, c.isDigit = true)
    (has' : as ≠ []) (had : ∀ c ∈ as, c.isDigit = true ∨ c = '.') :
    rgbAt ('r' :: 'g' :: 'b' :: 'a' :: '('
        :: (rs ++ ',' :: (gs ++ ',' :: (bs ++ ',' :: (as ++ [')'])))))
      = some (rs, gs, bs, some as) := by
  rcases List.exists_cons_of_ne_nil hgs with ⟨gc, gt, rfl⟩
  rcases List.exists_cons_of_ne_nil hbs with ⟨bc, bt, rfl⟩
  rcases List.exists_cons_of_ne_nil has' with ⟨ac, at', rfl⟩
  have hgw : isWsChar gc = false :=
    isWsChar_false_of_isDigit gc (hgd gc (by simp))
  have hbw : isWsChar bc = false :=
    isWsChar_false_of_isDigit bc (hbd bc (by simp))
  have haw : isWsChar ac = false := by
    rcases had ac (by simp) with h | h
    · exact isWsChar_false_of_isDigit ac h
    · subst h; decide
  unfold rgbAt
  simp only [expectChar, if_pos rfl, if_true]
  rw [takeDigits_append rs _ ',' hrd (by decide)]
  simp only [if_neg hrs, expectChar, if_pos rfl, if_true, List.cons_append]
  rw [dropWs_cons gc _ hgw, ← List.cons_append,
    takeDigits_append (gc :: gt) _ ',' hgd (by decide)]
  simp only [if_neg hgs, expectChar, if_pos rfl, if_true, List.cons_append]
  rw [dropWs_cons bc _ hbw, ← List.cons_append,
    takeDigits_append (bc :: bt) _ ',' hbd (by decide)]
  simp only [if_neg hbs, if_true, List.cons_append]
  rw [dropWs_cons ac _ haw, ← List.cons_append,
    takeFloatChars_append (ac :: at') _ ')' had (by decide)]
  simp only [if_neg has', expectChar, if_pos rfl, if_true]

/-- Leftmost-match search on a constructed color string succeeds at the
head. -/
theorem findRgb_constructed (rs gs bs as : List Char)
    (hrs : rs ≠ []) (hrd : ∀ c ∈ rs, c.isDigit = true)
    (hgs : gs ≠ []) (hgd : ∀ c ∈ gs, c.isDigit = true)
    (hbs : bs ≠ []) (hbd : ∀ c ∈ bs, c.isDigit = true)
    (has' : as ≠ []) (had : ∀ c ∈ as, c.isDigit = true ∨ c = '.') :
    findRgb ('r' :: 'g' :: 'b' :: 'a' :: '('
        :: (rs ++ ',' :: (gs ++ ',' :: (bs ++ ',' :: (as ++ [')'])))))
      = some (rs, gs, bs, some as) := by
  simp only [findRgb]
  rw [rgbAt_constructed rs gs bs as hrs hrd hgs hgd hbs hbd has' had]

/-- Parsing a constructed color string recovers its channel captures. -/
theorem parseColor_constructed (rs gs bs as : List Char)
    (hrs : rs ≠ []) (hrd : ∀ c ∈ rs, c.isDigit = true)
    (hgs : gs ≠ []) (hgd : ∀ c ∈ gs, c.isDigit = true)
    (hbs : bs ≠ []) (hbd : ∀ c ∈ bs, c.isDigit = true)
    (has' : as ≠ []) (had : ∀ c ∈ as, c.isDigit = true ∨ c = '.') :
    parseColor ("rgba(" ++ charsStr rs ++ "," ++ charsStr gs ++ ","
        ++ charsStr bs ++ "," ++ charsStr as ++ ")")
      = ((jsParseIntDec (charsStr rs)).map (fun z => (z : ℚ)),
         (jsParseIntDec (charsStr gs)).map (fun z => (z : ℚ)),
         (jsParseIntDec (charsStr bs)).map (fun z => (z : ℚ)),
         jsParseFloat (charsStr as)) := by
  have hdata := rgba_data rs gs bs as
  have hne1 : ("rgba(" ++ charsStr rs ++ "," ++ charsStr gs ++ ","
      ++ charsStr bs ++ "," ++ charsStr as ++ ")" : String) ≠ "" := by
    intro h
    rw [String.ext_iff, hdata] at h
    exact absurd h (by simp)
  have hne2 : ("rgba(" ++ charsStr rs ++ "," ++ charsStr gs ++ ","
      ++ charsStr bs ++ "," ++ charsStr as ++ ")" : String) ≠ "transparent" := by
    intro h
    rw [String.ext_iff, hdata] at h
    have := congrArg (fun l => l.headD ' ') h
    simp at this
  have hpre : jsStartsWith ("rgba(" ++ charsStr rs ++ "," ++ charsStr gs ++ ","
      ++ charsStr bs ++ "," ++ charsStr as ++ ")") "#" = false := by
    unfold jsStartsWith
    rw [hdata]
    simp [List.isPrefixOf]
  unfold parseColor
  rw [if_neg (by rintro (h | h); exacts [hne1 h, hne2 h])]
  rw [if_neg (by rw [hpre]; exact fun h => Bool.false_ne_true h)]
  rw [hdata, findRgb_constructed rs gs bs as hrs hrd hgs hgd hbs hbd has' had]

/-- Digits are not commas. -/
theorem ne_comma_of_digit (c : Char) (h : c.isDigit = true) : c ≠ ',' := by
  intro hc; subst hc; exact absurd h (by decide)

/-- The transparent fix rewrites the fully-transparent color to the RGB
of a constructed opaque neighbor with alpha `0`. -/
theorem fixTransparent_constructed (rs gs bs as : List Char)
    (hrd : ∀ c ∈ rs, c.isDigit = true)
    (hgd : ∀ c ∈ gs, c.isDigit = true)
    (hbd : ∀ c ∈ bs, c.isDigit = true)
    (had : ∀ c ∈ as, c.isDigit = true ∨ c = '.') :
    fixTransparent "rgba(0,0,0,0)"
        ("rgba(" ++ charsStr rs ++ "," ++ charsStr gs ++ "," ++ charsStr bs
          ++ "," ++ charsStr as ++ ")")
      = "rgba(" ++ charsStr rs ++ "," ++ charsStr gs ++ "," ++ charsStr bs
          ++ "," ++ charsStr ['0'] ++ ")" := by
  have hdata := rgba_data rs gs bs as
  have hsw : jsStartsWith ("rgba(" ++ charsStr rs ++ "," ++ charsStr gs ++ ","
      ++ charsStr bs ++ "," ++ charsStr as ++ ")") "rgba" = true := by
    unfold jsStartsWith
    rw [hdata]
    simp [List.isPrefixOf]
  have hshape : ('r' :: 'g' :: 'b' :: 'a' :: '('
        :: (rs ++ ',' :: (gs ++ ',' :: (bs ++ ',' :: (as ++ [')'])))))
      = ('r' :: 'g' :: 'b' :: 'a' :: '(' :: (rs ++ ',' :: (gs ++ ',' :: bs)))
        ++ ',' :: (as ++ [')']) := by
    simp [List.append_assoc]
  have hsuf : ∀ c ∈ as ++ [')'], c ≠ ',' := by
    intro c hc
    rcases List.mem_append.mp hc with hm | hm
    · rcases had c hm with h | h
      · exact ne_comma_of_digit c h
      · subst h; decide
    · simp at hm; subst hm; decide
  have hlast : lastCommaIdx ("rgba(" ++ charsStr rs ++ "," ++ charsStr gs
      ++ "," ++ charsStr bs ++ "," ++ charsStr as ++ ")" : String).data
      = some ('r' :: 'g' :: 'b' :: 'a' :: '('
          :: (rs ++ ',' :: (gs ++ ',' :: bs))).length := by
    rw [hdata, hshape]
    exact lastCommaIdx_append _ _ hsuf
  unfold fixTransparent
  rw [if_neg (fun h => h rfl)]
  rw [if_neg (by rw [hsw]; exact fun h => h rfl)]
  rw [hlast]
  show charsStr (List.take _ _) ++ "0)" = _
  rw [hdata, hshape, List.take_append 1]
  rw [String.ext_iff]
  simp [charsStr, String.data_append, List.append_assoc]

/-- On a two-point input range the bracketing scan stays at index 1. -/
theorem reSeg_pair (v x1 x2 : ℚ) : reSeg v [x1, x2] 1 = 1 := by
  unfold reSeg
  show reSegAux v [x1, x2] 2 1 = 1
  unfold reSegAux
  simp

/-- With the driver strictly inside the keyframe range,
`smartInterpolateColor` interpolates on the active segment with both
endpoint colors passed through the transparent fix. -/
theorem smartInterpolateColor_segment (val : ℚ) (input : List ℚ)
    (output : List String) (i0 : ℚ) (irest : List ℚ) (i : ℕ)
    (hin : input = i0 :: irest)
    (h2 : 2 ≤ output.length)
    (hlo : i0 < val)
    (hhi : val < input.getD (input.length - 1) 0)
    (hseg : smartSegScan val input 0 = i)
    (hilen : i + 1 < input.length) :
    smartInterpolateColor val input output
      = reInterpolateColor val [input.getD i 0, input.getD (i + 1) 0]
          [fixTransparent (output.getD i "") (output.getD (i + 1) ""),
           fixTransparent (output.getD (i + 1) "") (output.getD i "")] := by
  subst hin
  unfold smartInterpolateColor
  rw [if_neg (by omega), if_neg (by omega)]
  dsimp only
  rw [if_neg (not_le.mpr hlo)]
  rw [if_neg (not_le.mpr hhi)]
  rw [hseg]
  rw [if_neg (not_le.mpr hilen)]

/-- Interpolating between two colors that parse to the same RGB keeps
that RGB at every driver value; only alpha blends. -/
theorem reInterpolateColor_pair_eq (v x1 x2 : ℚ) (s1 s2 : String)
    (r g b : ℤ) (a1 a2 : ℚ)
    (h1 : parseColor s1 = (some (r : ℚ), some (g : ℚ), some (b : ℚ), some a1))
    (h2 : parseColor s2 = (some (r : ℚ), some (g : ℚ), some (b : ℚ), some a2)) :
    ∃ aq : ℚ, reInterpolateColor v [x1, x2] [s1, s2]
      = "rgba(" ++ renderChan (some r) ++ "," ++ renderChan (some g) ++ ","
        ++ renderChan (some b) ++ "," ++ renderAlpha (some aq) ++ ")" := by
  unfold reInterpolateColor
  rw [if_neg (by norm_num)]
  dsimp only
  rw [reSeg_pair]
  simp only [show (1:ℕ) - 1 = 0 from rfl, List.getD, List.get?,
    Option.getD_some]
  rw [h1, h2]
  dsimp only [optMap2]
  have hblend : ∀ (a t : ℚ), a + (a - a) * t = a := by intro a t; ring
  simp only [hblend, Option.map_some', jround_intCast]
  exact ⟨_, rfl⟩

/-- The transparent fix leaves a non-transparent first argument
unchanged. -/
theorem fixTransparent_of_ne (s t : String) (h : s ≠ "rgba(0,0,0,0)") :
    fixTransparent s t = s := by
  unfold fixTransparent
  rw [if_pos h]

/-- C3: when the active segment of smart color interpolation has one
fully-transparent endpoint (the normalized string `rgba(0,0,0,0)`) and one
opaque endpoint (a normalized `rgba(r,g,b,a)` string, in either order),
the result's R, G and B channels equal the opaque endpoint's parsed R, G
and B at every driver value - only alpha blends.  The embedding takes the
keyframe lists as immutable values, so the rewrite is local to the
returned string and the stored keyframes are unchanged by construction. -/
theorem C3_transparent_rgb_adoption
    (val : ℚ) (input : List ℚ) (output : List String) (i0 : ℚ)
    (irest : List ℚ) (i : ℕ) (rs gs bs as : List Char) (rz gz bz : ℤ)
    (av : ℚ)
    (hin : input = i0 :: irest)
    (h2 : 2 ≤ output.length)
    (hlo : i0 < val)
    (hhi : val < input.getD (input.length - 1) 0)
    (hseg : smartSegScan val input 0 = i)
    (hilen : i + 1 < input.length)
    (hrs : rs ≠ []) (hrd : ∀ c ∈ rs, c.isDigit = true)
    (hgs : gs ≠ []) (hgd : ∀ c ∈ gs, c.isDigit = true)
    (hbs : bs ≠ []) (hbd : ∀ c ∈ bs, c.isDigit = true)
    (has' : as ≠ []) (had : ∀ c ∈ as, c.isDigit = true ∨ c = '.')
    (hr : jsParseIntDec (charsStr rs) = some rz)
    (hg : jsParseIntDec (charsStr gs) = some gz)
    (hb : jsParseIntDec (charsStr bs) = some bz)
    (ha : jsParseFloat (charsStr as) = some av)
    (hopq : ("rgba(" ++ charsStr rs ++ "," ++ charsStr gs ++ ","
        ++ charsStr bs ++ "," ++ charsStr as ++ ")" : String)
      ≠ "rgba(0,0,0,0)")
    (horient :
      (output.getD i "" = "rgba(0,0,0,0)"
        ∧ output.getD (i + 1) "" = "rgba(" ++ charsStr rs ++ ","
            ++ charsStr gs ++ "," ++ charsStr bs ++ "," ++ charsStr as ++ ")")
      ∨ (output.getD i "" = "rgba(" ++ charsStr rs ++ "," ++ charsStr gs
            ++ "," ++ charsStr bs ++ "," ++ charsStr as ++ ")"
        ∧ output.getD (i + 1) "" = "rgba(0,0,0,0)")) :
    parseColor ("rgba(" ++ charsStr rs ++ "," ++ charsStr gs ++ ","
        ++ charsStr bs ++ "," ++ charsStr as ++ ")")
      = (some (rz : ℚ), some (gz : ℚ), some (bz : ℚ), some av)
    ∧ ∃ aq : ℚ, smartInterpolateColor val input output
      = "rgba(" ++ renderChan (some rz) ++ "," ++ renderChan (some gz)
        ++ "," ++ renderChan (some bz) ++ "," ++ renderAlpha (some aq)
        ++ ")" := by
  have hpcn : parseColor ("rgba(" ++ charsStr rs ++ "," ++ charsStr gs ++ ","
      ++ charsStr bs ++ "," ++ charsStr as ++ ")")
      = (some (rz : ℚ), some (gz : ℚ), some (bz : ℚ), some av) := by
    rw [parseColor_constructed rs gs bs as hrs hrd hgs hgd hbs hbd has' had,
      hr, hg, hb, ha]
    rfl
  have hz : jsParseFloat (charsStr ['0']) = some 0 := by
    with_unfolding_all rfl
  have hpc0n : parseColor ("rgba(" ++ charsStr rs ++ "," ++ charsStr gs ++ ","
      ++ charsStr bs ++ "," ++ charsStr ['0'] ++ ")")
      = (some (rz : ℚ), some (gz : ℚ), some (bz : ℚ), some 0) := by
    rw [parseColor_constructed rs gs bs ['0'] hrs hrd hgs hgd hbs hbd
      (by simp) (by intro c hc; simp at hc; subst hc; left; decide),
      hr, hg, hb, hz]
    rfl
  refine ⟨hpcn, ?_⟩
  rw [smartInterpolateColor_segment val input output i0 irest i hin h2 hlo hhi
    hseg hilen]
  have hfix := fixTransparent_constructed rs gs bs as hrd hgd hbd had
  rcases horient with ⟨h1, hOp⟩ | ⟨hOp, h1⟩
  · rw [h1, hOp, hfix, fixTransparent_of_ne _ _ hopq]
    exact reInterpolateColor_pair_eq val _ _ _ _ rz gz bz 0 av hpc0n hpcn
  · rw [h1, hOp, hfix, fixTransparent_of_ne _ _ hopq]
    exact reInterpolateColor_pair_eq val _ _ _ _ rz gz bz av 0 hpcn hpc0n

/-- Witness for C3: driver 5 on the segment from transparent to
`rgba(255,128,0,1)` keeps RGB `(255,128,0)` exactly. -/
theorem C3_transparent_rgb_adoption_witness :
    smartSegScan 5 [0, 10] 0 = 0
    ∧ (0:ℚ) < 5
    ∧ parseColor "rgba(255,128,0,1)"
      = (some 255, some 128, some 0, some 1)
    ∧ ∃ aq : ℚ, smartInterpolateColor 5 [0, 10]
        ["rgba(0,0,0,0)", "rgba(255,128,0,1)"]
      = "rgba(" ++ renderChan (some 255) ++ "," ++ renderChan (some 128)
        ++ "," ++ renderChan (some 0) ++ "," ++ renderAlpha (some aq)
        ++ ")" := by
  have h := C3_transparent_rgb_adoption 5 [0, 10]
    ["rgba(0,0,0,0)", "rgba(255,128,0,1)"] 0 [10] 0
    ['2', '5', '5'] ['1', '2', '8'] ['0'] ['1'] 255 128 0 1
    rfl (by decide) (by norm_num) (by with_unfolding_all decide)
    (by with_unfolding_all rfl) (by decide)
    (by decide) (by decide) (by decide) (by decide) (by decide) (by decide)
    (by decide) (by decide)
    (by with_unfolding_all rfl) (by with_unfolding_all rfl)
    (by with_unfolding_all rfl) (by with_unfolding_all rfl)
    (by with_unfolding_all decide)
    (Or.inl ⟨by with_unfolding_all rfl, by with_unfolding_all rfl⟩)
  exact ⟨by with_unfolding_all rfl, by norm_num, h.1, h.2⟩

end Aniview
